import Mathlib

/-!
Verification development for the RelocBonus PE recompiler
(`src/reloc/PeRecompiler.cpp`).

The C++ source is embedded shallowly:

* machine integers are `Nat` with explicit `% 2^32` wraparound where the
  C++ code computes in `uint32_t` (`add32` / `sub32` below);
* the mutable section buffers are `List Nat` of byte values, threaded
  explicitly through the functions that mutate them;
* fallible operations return `Option` or a `Bool × state` pair mirroring
  the C++ `bool` returns with in-place mutation.

Several collaborators of `PeRecompiler.cpp` are not part of the source
tree (the PeLib PE-format adapter, `VectorUtils.h`, `RewriteBlock.h/.cpp`,
and the ASLR preselection stub).  Definitions for those carry a doc
comment starting with `Modelled from the spec:` and follow the
natural-language specification's description of the missing component.
-/

/-- Constant from PeRecompiler.cpp: the image base written into the header
so that the loader falls back to `ACTUALIZED_BASE_ADDRESS`. -/
def TRICKY_BASE_ADDRESS : Nat := 0xFFFF0000

/-- Constant from PeRecompiler.cpp: the address the binary actually loads at. -/
def ACTUALIZED_BASE_ADDRESS : Nat := 0x00010000

/-- Windows constant: the ASLR DLL characteristic bit. -/
def IMAGE_DLLCHARACTERISTICS_DYNAMIC_BASE : Nat := 0x0040

/-- Windows constant: the full 32-bit high/low relocation type. -/
def IMAGE_REL_BASED_HIGHLOW : Nat := 3

/-- Addition with `uint32_t` wraparound. -/
def add32 (a b : Nat) : Nat := (a + b) % 4294967296

/-- Subtraction with `uint32_t` wraparound. -/
def sub32 (a b : Nat) : Nat := (a + (4294967296 - b % 4294967296)) % 4294967296

/-- Modelled from the spec: `getData` of the missing `VectorUtils.h` reads a
32-bit little-endian value from a byte buffer and fails exactly on an
out-of-range read. -/
def getData (data : List Nat) (offset : Nat) : Option Nat :=
  if offset + 4 ≤ data.length then
    some (data.getD offset 0 + data.getD (offset + 1) 0 * 256 +
      data.getD (offset + 2) 0 * 65536 + data.getD (offset + 3) 0 * 16777216)
  else
    none

/-- Modelled from the spec: `putData` of the missing `VectorUtils.h` writes a
32-bit value little-endian into a byte buffer. -/
def putData (data : List Nat) (offset value : Nat) : List Nat :=
  ((((data.set offset (value % 256)).set (offset + 1) (value / 256 % 256)).set
    (offset + 2) (value / 65536 % 256)).set (offset + 3) (value / 16777216 % 256))

/-- One section header entry of the PE header (PeLib section table row). -/
structure SectionHeader where
  name : String
  virtualSize : Nat
  virtualAddress : Nat
  sizeOfRawData : Nat
  pointerToRawData : Nat
  characteristics : Nat
deriving DecidableEq

/-- The PE header fields PeRecompiler.cpp reads or writes.  The section
count of the C++ header is the length of `sections`. -/
structure PeHeader where
  dllCharacteristics : Nat
  imageBase : Nat
  addressOfEntryPoint : Nat
  iddBaseRelocRva : Nat
  iddBaseRelocSize : Nat
  iddIatRva : Nat
  iddIatSize : Nat
  iddImportRva : Nat
  iddImportSize : Nat
  sections : List SectionHeader
deriving DecidableEq

/-- One block of the base-relocation directory: a page RVA, the stored
`SizeOfBlock` field, and the 16-bit entries. -/
structure RelocBlock where
  virtualAddress : Nat
  sizeOfBlock : Nat
  entries : List Nat
deriving DecidableEq

/-- The MZ header field PeRecompiler.cpp uses. -/
structure MzHeader where
  addressOfPeHeader : Nat
deriving DecidableEq

/-- A parsed PE file: MZ header, PE header and the relocation directory,
the latter as the list of its blocks (`calcNumberOfRelocations` of PeLib
is the length of `relocBlocks`). -/
structure PeFile where
  mzHeader : MzHeader
  peHeader : PeHeader
  relocBlocks : List RelocBlock
deriving DecidableEq

/-- In-memory mirror of one section: metadata plus the raw byte buffer
(class `PeSectionContents` of the source). -/
structure PeSectionContents where
  index : Nat
  RVA : Nat
  size : Nat
  rawPointer : Nat
  virtualSize : Nat
  name : String
  data : List Nat
deriving DecidableEq, Inhabited

/-- Modelled from the spec: the polymorphic rewrite blocks of the missing
`RewriteBlock.h`.  `entryPointBlock` and `baseAddressBlock` are the
single-field header blocks; `sectionBlock i s l` is a `PeSectionRewriteBlock`
over the section at position `i` of the tracked contents, covering the byte
subrange `[s, s+l)` (the whole-section constructor is `sectionBlock i 0 size`). -/
inductive RewriteBlock where
  | entryPointBlock : RewriteBlock
  | baseAddressBlock : RewriteBlock
  | sectionBlock : Nat → Nat → Nat → RewriteBlock
deriving DecidableEq

/-- The recompiler state: the fields of class `PeRecompiler` that the
pipeline reads or writes (the log streams and file names are omitted). -/
structure PeRecompiler where
  peFile : Option PeFile
  sectionContents : List PeSectionContents
  sectionPool : List PeSectionContents
  rewriteBlocks : List RewriteBlock
  multiPass : Bool
  shouldUseWin10Attack : Bool
deriving DecidableEq

/-- Containment test of `getSectionByRVA`: the negation of its `continue`
condition, with `uint32_t` wraparound on the sums as in the source. -/
def sectionContains (rva size : Nat) (sec : PeSectionContents) : Bool :=
  decide (sec.RVA ≤ rva ∧ rva < add32 sec.RVA sec.size ∧
    add32 rva size ≤ add32 sec.RVA sec.size)

/-- Recursive search for the first section containing the range, returning
its position in the contents list. -/
def findSection (rva size : Nat) : List PeSectionContents → Option Nat
  | [] => none
  | sec :: rest =>
    if sectionContains rva size sec then some 0
    else (findSection rva size rest).map (fun i => i + 1)

/-- `PeRecompiler::getSectionByRVA`, returning the position of the found
section in the contents list instead of a shared pointer. -/
def getSectionByRVA (secs : List PeSectionContents) (rva size : Nat) : Option Nat :=
  if rva = 0 ∨ size = 0 then none else findSection rva size secs

/-- Write a 32-bit value into the data buffer of the section at position
`k`; common shape of the section mutations of the source. -/
def storeWord (secs : List PeSectionContents) (k si value : Nat) : List PeSectionContents :=
  match secs[k]? with
  | none => secs
  | some sec => secs.set k { sec with data := putData sec.data si value }

/-- Read the 32-bit window at buffer offset `si` of the section at
position `k`. -/
def windowAt (secs : List PeSectionContents) (k si : Nat) : Option Nat :=
  match secs[k]? with
  | none => none
  | some sec => getData sec.data si

/-- Body of the inner loop of `performOnDiskRelocations` (lines 255-279):
classify one relocation entry and apply the delta when the low two bits of
its type are set, mirroring `entryType & IMAGE_REL_BASED_HIGHLOW`. -/
def applyRelocEntry (secs : List PeSectionContents) (k blockRVA delta e : Nat) :
    Bool × List PeSectionContents :=
  let entryType := e >>> 12
  let entryAddress := add32 blockRVA (e &&& 0x0FFF)
  if entryType &&& IMAGE_REL_BASED_HIGHLOW ≠ 0 then
    match secs[k]? with
    | none => (false, secs)
    | some sec =>
      let si := sub32 entryAddress sec.RVA
      match getData sec.data si with
      | none => (false, secs)
      | some original => (true, storeWord secs k si (add32 original delta))
  else if entryType ≠ 0 then
    (false, secs)
  else
    (true, secs)

/-- Inner loop of `performOnDiskRelocations` over the entries of one
relocation block; a failing entry aborts, keeping the mutations so far. -/
def applyRelocEntries (secs : List PeSectionContents) (k blockRVA delta : Nat) :
    List Nat → Bool × List PeSectionContents
  | [] => (true, secs)
  | e :: rest =>
    match applyRelocEntry secs k blockRVA delta e with
    | (false, s) => (false, s)
    | (true, s) => applyRelocEntries s k blockRVA delta rest

/-- Outer loop of `performOnDiskRelocations` over the relocation blocks:
locate the containing section of each block by its page RVA, then apply
the entries. -/
def applyRelocBlocks (secs : List PeSectionContents) (delta : Nat) :
    List RelocBlock → Bool × List PeSectionContents
  | [] => (true, secs)
  | rb :: rest =>
    match getSectionByRVA secs rb.virtualAddress 4 with
    | none => (false, secs)
    | some k =>
      match applyRelocEntries secs k rb.virtualAddress delta rb.entries with
      | (false, s) => (false, s)
      | (true, s) => applyRelocBlocks s delta rest

/-- The `while (reloc.calcNumberOfRelocations()) reloc.removeRelocation(0);`
loop of lines 286-287. -/
def clearRelocLoop : List RelocBlock → List RelocBlock
  | [] => []
  | _ :: rest => clearRelocLoop rest

/-- `PeRecompiler::performOnDiskRelocations` (lines 170-292).  The
`readRelocationsDirectory` call is modelled as always succeeding: the
directory contents are already part of the state.  Returns the C++ `bool`
together with the mutated state (mutations before a failing step persist,
as they do through the in-place mutation of the source). -/
def performOnDiskRelocations (st : PeRecompiler) : Bool × PeRecompiler :=
  match st.peFile with
  | none => (false, st)
  | some pf =>
    if st.sectionContents.length = 0 then (false, st)
    else
      let characteristics := pf.peHeader.dllCharacteristics
      let requestedBase := pf.peHeader.imageBase
      if characteristics &&& IMAGE_DLLCHARACTERISTICS_DYNAMIC_BASE ≠
          IMAGE_DLLCHARACTERISTICS_DYNAMIC_BASE then
        (false, st)
      else
        let ph1 :=
          if ¬ st.shouldUseWin10Attack then
            { pf.peHeader with dllCharacteristics :=
                characteristics &&& 0xFFFFFFBF }
          else if characteristics &&& IMAGE_DLLCHARACTERISTICS_DYNAMIC_BASE ≠ 0 then
            pf.peHeader
          else
            { pf.peHeader with dllCharacteristics :=
                characteristics &&& IMAGE_DLLCHARACTERISTICS_DYNAMIC_BASE }
        let ph2 :=
          if ¬ st.shouldUseWin10Attack then { ph1 with imageBase := TRICKY_BASE_ADDRESS }
          else ph1
        let relocDelta := sub32 ACTUALIZED_BASE_ADDRESS requestedBase
        match applyRelocBlocks st.sectionContents relocDelta pf.relocBlocks with
        | (false, secs1) =>
          let pfFail := { pf with peHeader := ph2 }
          (false, { st with peFile := some pfFail, sectionContents := secs1 })
        | (true, secs1) =>
          let pfOk := { pf with peHeader := ph2, relocBlocks := clearRelocLoop pf.relocBlocks }
          (true, { st with peFile := some pfOk, sectionContents := secs1 })

/-- Modelled from the spec: `getNextMultiPassBlock` of the missing
`RewriteBlock.cpp`.  The spec leaves multi-pass descendants unspecified
(an explicit open question), so the model produces none. -/
def getNextMultiPassBlock (_blk : RewriteBlock) (_count : Nat) : Option RewriteBlock :=
  none

/-- Descendant chain produced by the multi-pass loop of
`PeRecompiler::addRewriteBlock`; empty because `getNextMultiPassBlock`
is modelled as producing no descendants. -/
def multiPassChain (blk : RewriteBlock) : List RewriteBlock :=
  match getNextMultiPassBlock blk 0 with
  | none => []
  | some b => [b]

/-- `PeRecompiler::addRewriteBlock` (lines 52-71): append the block, then
its multi-pass descendants when the flag is set. -/
def addRewriteBlock (st : PeRecompiler) (blk : RewriteBlock) : PeRecompiler :=
  { st with rewriteBlocks :=
      st.rewriteBlocks ++ blk :: (if st.multiPass then multiPassChain blk else []) }

/-- `PeRecompiler::doRewriteReadyCheck` (lines 626-647). -/
def doRewriteReadyCheck (st : PeRecompiler) : Bool :=
  match st.peFile with
  | none => false
  | some pf =>
    if st.sectionContents.length = 0 then false
    else if (pf.relocBlocks.length ≠ 0 ∨
        pf.peHeader.imageBase ≠ TRICKY_BASE_ADDRESS) ∧
        ¬ st.shouldUseWin10Attack = true then false
    else true

/-- `PeRecompiler::rewriteHeader` (lines 294-309). -/
def rewriteHeader (st : PeRecompiler) : Bool × PeRecompiler :=
  if ¬ doRewriteReadyCheck st = true then (false, st)
  else if ¬ st.shouldUseWin10Attack = true then
    (true, addRewriteBlock st RewriteBlock.entryPointBlock)
  else (true, st)

/-- `PeRecompiler::fixupBase` (lines 311-320). -/
def fixupBase (st : PeRecompiler) : Bool × PeRecompiler :=
  if ¬ doRewriteReadyCheck st = true then (false, st)
  else (true, addRewriteBlock st RewriteBlock.baseAddressBlock)

/-- Search loop of `PeRecompiler::rewriteSection`: first section of the
given name, with its position. -/
def findSectionByName (nm : String) : List PeSectionContents → Option (Nat × PeSectionContents)
  | [] => none
  | sec :: rest =>
    if sec.name = nm then some (0, sec)
    else (findSectionByName nm rest).map (fun p => (p.1 + 1, p.2))

/-- `PeRecompiler::rewriteSection` (lines 322-340); a missing section is a
logged policy miss, not an error. -/
def rewriteSection (st : PeRecompiler) (name : String) : Bool × PeRecompiler :=
  if ¬ doRewriteReadyCheck st = true then (false, st)
  else
    match findSectionByName name st.sectionContents with
    | some (i, sec) => (true, addRewriteBlock st (RewriteBlock.sectionBlock i 0 sec.size))
    | none => (true, st)

/-- `PeRecompiler::rewriteSubsectionByRVA` (lines 742-749). -/
def rewriteSubsectionByRVA (st : PeRecompiler) (rva size : Nat) : Bool × PeRecompiler :=
  match getSectionByRVA st.sectionContents rva size with
  | none => (false, st)
  | some k =>
    match st.sectionContents[k]? with
    | none => (false, st)
    | some sec =>
      (true, addRewriteBlock st (RewriteBlock.sectionBlock k (sub32 rva sec.RVA) size))

/-- Scan loop of `PeRecompiler::rewriteImports` (lines 379-389): fold the
running lowest/highest name RVA over the 32-bit IAT slots, skipping zero
slots and stopping at the first failing read.  The loop advances `imp` by
4 while `imp < stop`, so `stop - imp` bounds the iteration count; it is
passed as structural fuel and never runs out before the guard fails. -/
def hnGo (data : List Nat) : Nat → Nat → Nat → Nat → Nat → Nat × Nat
  | 0, _, _, lo, hi => (lo, hi)
  | fuel + 1, imp, stop, lo, hi =>
    if imp < stop then
      match getData data imp with
      | none => (lo, hi)
      | some temp =>
        if temp = 0 then hnGo data fuel (imp + 4) stop lo hi
        else if temp < lo then hnGo data fuel (imp + 4) stop temp hi
        else if hi < temp then hnGo data fuel (imp + 4) stop lo temp
        else hnGo data fuel (imp + 4) stop lo hi
    else (lo, hi)

/-- The scan loop of `rewriteImports` entered at `imp` with bound `stop`. -/
def hnLoop (data : List Nat) (imp stop lo hi : Nat) : Nat × Nat :=
  hnGo data (stop - imp) imp stop lo hi

/-- The `(rva, size)` pair `rewriteImports` passes to
`rewriteSubsectionByRVA` for the Hints/Names and DLL-names region, when
the IAT has a containing section. -/
def hintsNamesRequest (secs : List PeSectionContents) (iatRVA iatSize : Nat) :
    Option (Nat × Nat) :=
  match getSectionByRVA secs iatRVA iatSize with
  | none => none
  | some k =>
    match secs[k]? with
    | none => none
    | some sec =>
      let iatOffset := sub32 iatRVA sec.RVA
      let r := hnLoop sec.data iatOffset (add32 iatOffset iatSize) 0xFFFFFFFF 0
      some (r.1, sub32 r.2 r.1)

/-- `PeRecompiler::rewriteImports` (lines 342-398). -/
def rewriteImports (st : PeRecompiler) : Bool × PeRecompiler :=
  if ¬ doRewriteReadyCheck st = true then (false, st)
  else if st.shouldUseWin10Attack then (true, st)
  else
    match st.peFile with
    | none => (true, st)
    | some pf =>
      let iatRVA := pf.peHeader.iddIatRva
      let iatSize := pf.peHeader.iddIatSize
      let st1 := (rewriteSubsectionByRVA st iatRVA iatSize).2
      let st2 := (rewriteSubsectionByRVA st1 pf.peHeader.iddImportRva pf.peHeader.iddImportSize).2
      match hintsNamesRequest st2.sectionContents iatRVA iatSize with
      | none => (true, st2)
      | some r => (true, (rewriteSubsectionByRVA st2 r.1 r.2).2)

/-- Needle match at one buffer position (full needle inside the buffer). -/
def matchAt (data needle : List Nat) (p : Nat) : Bool :=
  decide (p + needle.length ≤ data.length) &&
    decide ((data.drop p).take needle.length = needle)

/-- Positions of all (overlap-allowed) needle matches in ascending order;
models the `std::search` loop of `rewriteMatches` that resumes one byte
past each hit. -/
def occurrences (data needle : List Nat) : List Nat :=
  (List.range data.length).filter (fun p => matchAt data needle p)

/-- Per-section block enqueueing of `rewriteMatches`: one subrange block
of length `needleLen + 1` per match position. -/
def addMatchBlocks (i needleLen : Nat) : PeRecompiler → List Nat → PeRecompiler
  | st, [] => st
  | st, p :: rest =>
    addMatchBlocks i needleLen
      (addRewriteBlock st (RewriteBlock.sectionBlock i p (needleLen + 1))) rest

/-- Section loop of `rewriteMatches` over the (unmodified) contents list. -/
def rewriteMatchesGo (needle : List Nat) : PeRecompiler → Nat → List PeSectionContents → PeRecompiler
  | st, _, [] => st
  | st, i, sec :: rest =>
    rewriteMatchesGo needle (addMatchBlocks i needle.length st (occurrences sec.data needle)) (i + 1) rest

/-- `PeRecompiler::rewriteMatches` (lines 400-426); the needle is the raw
byte run of the argument string. -/
def rewriteMatches (st : PeRecompiler) (needle : List Nat) : Bool × PeRecompiler :=
  if ¬ doRewriteReadyCheck st = true then (false, st)
  else (true, rewriteMatchesGo needle st 0 st.sectionContents)

/-- Modelled from the spec: the `AddressOfEntryPoint` field of the header
sits at the standard PE32 offset 0x28 past the PE signature; used as the
packing location of the entry-point rewrite block. -/
def entryPointFieldRVA (pf : PeFile) : Nat :=
  pf.mzHeader.addressOfPeHeader + 40

/-- Modelled from the spec: the `ImageBase` field of the header sits at the
standard PE32 offset 0x34 past the PE signature. -/
def imageBaseFieldRVA (pf : PeFile) : Nat :=
  pf.mzHeader.addressOfPeHeader + 52

/-- Modelled from the spec: the 32-bit slot offsets a subrange rewrite
block covers, namely `start + 4k` for every `4k < len` (the slot protocol
of `RewriteBlock.h`; scenario S3 of the spec fixes the rounding: a 6-byte
subrange yields two slots). -/
def slotOffsets (start len : Nat) : List Nat :=
  (List.range ((len + 3) / 4)).map (fun j => start + 4 * j)

/-- Modelled from the spec: the `(rva, section_offset)` slots enumerated by
`getFirstEntryLoc` / `getNextEntryLoc` of the missing `RewriteBlock.h`, in
ascending order.  Header blocks have their single header-field slot. -/
def blockSlots (st : PeRecompiler) (blk : RewriteBlock) : List (Nat × Nat) :=
  match blk with
  | RewriteBlock.entryPointBlock =>
    match st.peFile with
    | none => []
    | some pf => [(entryPointFieldRVA pf, 0)]
  | RewriteBlock.baseAddressBlock =>
    match st.peFile with
    | none => []
    | some pf => [(imageBaseFieldRVA pf, 0)]
  | RewriteBlock.sectionBlock i s l =>
    match st.sectionContents[i]? with
    | none => []
    | some sec => (slotOffsets s l).map (fun o => (add32 sec.RVA o, o))

/-- Modelled from the spec: `decrementEntry` of the missing
`RewriteBlock.h`: read the 32-bit little-endian value at the location,
subtract the delta with 32-bit wraparound, write it back; fails only on an
out-of-range read. -/
def decrementEntry (st : PeRecompiler) (blk : RewriteBlock) (offset delta : Nat) :
    Option PeRecompiler :=
  match blk with
  | RewriteBlock.sectionBlock i _ _ =>
    match st.sectionContents[i]? with
    | none => none
    | some sec =>
      match getData sec.data offset with
      | none => none
      | some v =>
        some { st with sectionContents := storeWord st.sectionContents i offset (sub32 v delta) }
  | RewriteBlock.entryPointBlock =>
    match st.peFile with
    | none => none
    | some pf =>
      let ph := pf.peHeader
      let ph1 := { ph with addressOfEntryPoint := sub32 ph.addressOfEntryPoint delta }
      some { st with peFile := some { pf with peHeader := ph1 } }
  | RewriteBlock.baseAddressBlock =>
    match st.peFile with
    | none => none
    | some pf =>
      let ph := pf.peHeader
      let ph1 := { ph with imageBase := sub32 ph.imageBase delta }
      some { st with peFile := some { pf with peHeader := ph1 } }

/-- Staging record of `writeOutputFile` (lines 459-464): a packed block
under construction, its begin RVA and the 12-bit page-relative offsets. -/
structure PackedBlock where
  beginRVA : Nat
  offsets : List Nat
deriving DecidableEq

/-- The do-while loop of `writeOutputFile` stage 1 (lines 482-498) over the
slots of one rewrite block: decrement each slot (stopping at a failing
read), open a fresh packed block at the front when the `uint16_t`-cast
offset reaches the 4 KiB chunk size, and append the offset to the front
packed block. -/
def packSlots (blk : RewriteBlock) (delta : Nat) :
    PeRecompiler × List PackedBlock → List (Nat × Nat) → PeRecompiler × List PackedBlock
  | acc, [] => acc
  | (st, pbs), (rva, off) :: rest =>
    match decrementEntry st blk off delta with
    | none => (st, pbs)
    | some st1 =>
      match pbs with
      | [] => (st1, [])
      | pb :: tail =>
        let r16 := (sub32 rva pb.beginRVA) % 65536
        if 4096 ≤ r16 then
          packSlots blk delta (st1, { beginRVA := rva, offsets := [0] } :: pb :: tail) rest
        else
          packSlots blk delta (st1, { pb with offsets := pb.offsets ++ [r16] } :: tail) rest

/-- One iteration of the rewrite-block loop of `writeOutputFile` stage 1
(lines 471-499): skip a block with no first slot, otherwise push a fresh
packed block to the front and run the slot loop. -/
def packOneBlock (delta : Nat) (acc : PeRecompiler × List PackedBlock) (blk : RewriteBlock) :
    PeRecompiler × List PackedBlock :=
  match blockSlots acc.1 blk with
  | [] => acc
  | (rva, off) :: rest =>
    packSlots blk delta (acc.1, { beginRVA := rva, offsets := [] } :: acc.2) ((rva, off) :: rest)

/-- Stage 1 of `writeOutputFile`: apply all queued rewrites in insertion
order, collecting packed blocks front-first. -/
def runRewrites (st : PeRecompiler) (delta : Nat) : PeRecompiler × List PackedBlock :=
  st.rewriteBlocks.foldl (packOneBlock delta) (st, [])

/-- Stage 2 of `writeOutputFile` for one packed block (lines 513-536): one
16-bit entry `(HIGHLOW << 12) | (offset & 0x0FFF)` per offset, a zero pad
entry when the count is odd, and the 8-byte-header-inclusive block size. -/
def emitPackedBlock (pb : PackedBlock) : RelocBlock :=
  let entries := pb.offsets.map (fun o => (IMAGE_REL_BASED_HIGHLOW <<< 12) ||| (o &&& 0x0FFF))
  let relocSize := pb.offsets.length * 2 + 8
  if pb.offsets.length % 2 = 1 then
    { virtualAddress := pb.beginRVA, sizeOfBlock := relocSize + 2, entries := entries ++ [0] }
  else
    { virtualAddress := pb.beginRVA, sizeOfBlock := relocSize, entries := entries }

/-- Stage 2 of `writeOutputFile` over the packed-block deque in order. -/
def emitPackedBlocks (pbs : List PackedBlock) : List RelocBlock :=
  pbs.map emitPackedBlock

/-- Little-endian serialization of a 32-bit value. -/
def serializeU32 (v : Nat) : List Nat :=
  [v % 256, v / 256 % 256, v / 65536 % 256, v / 16777216 % 256]

/-- Little-endian serialization of a 16-bit value. -/
def serializeU16 (v : Nat) : List Nat :=
  [v % 256, v / 256 % 256]

/-- Modelled from the spec: PeLib `RelocationsDirectory::rebuild`
serializes each block as its 8-byte header (page RVA and block size,
little-endian) followed by the 16-bit entries. -/
def rebuildRelocData (blocks : List RelocBlock) : List Nat :=
  (blocks.map (fun b =>
    serializeU32 b.virtualAddress ++ serializeU32 b.sizeOfBlock ++
      (b.entries.map serializeU16).flatten)).flatten

/-- The `while (size % 512) push_back(0)` padding loop of stage 3. -/
def pad512 (data : List Nat) : List Nat :=
  data ++ List.replicate ((512 - data.length % 512) % 512) 0

/-- Point update of one section-header row (PeLib
`setVirtualSize` / `setSizeOfRawData` / `setCharacteristics` /
`setSectionName` shape). -/
def updateSectionHeaderAt (ph : PeHeader) (i : Nat) (f : SectionHeader → SectionHeader) :
    PeHeader :=
  match ph.sections[i]? with
  | none => ph
  | some s => { ph with sections := ph.sections.set i (f s) }

/-- Modelled from the spec: PeLib `makeValid` recomputes dependent header
fields (alignment fields, checksum slot, section count) that this
embedding does not track separately; on the tracked fields it is the
identity. -/
def makeValid (ph : PeHeader) (_peOffset : Nat) : PeHeader :=
  ph

/-- Round `v` up to a multiple of `a`. -/
def alignUp (v a : Nat) : Nat :=
  (v + a - 1) / a * a

/-- Modelled from the spec: PeLib `addSection` appends a section header of
the given name and virtual size; the new section is placed at the next
4 KiB-aligned RVA past the last section. -/
def addSectionHeader (ph : PeHeader) (name : String) (size : Nat) : PeHeader :=
  let nextRVA :=
    match ph.sections.getLast? with
    | none => 4096
    | some s => alignUp (s.virtualAddress + max s.virtualSize 1) 4096
  { ph with sections := ph.sections ++
      [{ name := name, virtualSize := size, virtualAddress := nextRVA,
         sizeOfRawData := size, pointerToRawData := 0, characteristics := 0 }] }

/-- Refresh of the cached contents metadata from the header row at the
contents record's index (lines 727-731). -/
def refreshFromHeader (ph : PeHeader) (sec : PeSectionContents) : PeSectionContents :=
  match ph.sections[sec.index]? with
  | none => sec
  | some s =>
    { sec with
      RVA := s.virtualAddress
      size := s.sizeOfRawData
      rawPointer := s.pointerToRawData
      virtualSize := s.virtualSize
      name := s.name }

/-- Result of `allocSection`: the mutated header, contents list and pool,
and the position of the returned section in the contents list. -/
structure AllocResult where
  header : PeHeader
  contents : List PeSectionContents
  pool : List PeSectionContents
  pos : Nat
deriving DecidableEq

/-- `PeRecompiler::allocSection` (lines 664-740).  The pool-reuse branch is
dead in every reachable state because nothing ever populates the pool; it
is modelled with the same guard (candidate strictly larger, or final
section index). -/
def allocSection (ph : PeHeader) (secs pool : List PeSectionContents) (mzOffset : Nat)
    (name : String) (size access : Nat) : AllocResult :=
  let finalSecIndex := ph.sections.length - 1
  match pool.find? (fun sec => decide (size < sec.size) || decide (sec.index = finalSecIndex)) with
  | some sec =>
    let ph1 := updateSectionHeaderAt ph sec.index
      (fun s => { s with name := name, virtualSize := size, sizeOfRawData := size })
    let ph2 := updateSectionHeaderAt ph1 sec.index (fun s => { s with characteristics := access })
    let refreshed := refreshFromHeader ph2 sec
    { header := ph2, contents := secs.set sec.index refreshed,
      pool := pool.erase sec, pos := sec.index }
  | none =>
    let ph1 := makeValid (addSectionHeader ph name size) mzOffset
    let idx := ph1.sections.length - 1
    let newSec0 : PeSectionContents :=
      { index := idx, RVA := 0, size := 0, rawPointer := 0, virtualSize := 0,
        name := "", data := [] }
    let ph2 := updateSectionHeaderAt ph1 idx (fun s => { s with characteristics := access })
    let refreshed := refreshFromHeader ph2 newSec0
    { header := ph2, contents := secs ++ [refreshed], pool := pool, pos := secs.length }

/-- The `pushBytes` helper of the missing `VectorUtils.h`: append the stub
bytes to the buffer. -/
def pushBytes (bytes data : List Nat) : List Nat :=
  data ++ bytes

/-- Modelled from the spec: the concrete preselection shellcode is a
black-box collaborator; the model fixes an arbitrary byte function of the
original entry-point RVA. -/
def stubBytes (ep : Nat) : List Nat :=
  [0x68, ep % 256, ep / 256 % 256, ep / 65536 % 256, ep / 16777216 % 256, 0xC3]

/-- Modelled from the spec: `prepareStub` returns `(bytes, len)` for an
original entry point and can in principle fail; the modelled stub
preparation always succeeds. -/
def prepareStub (ep : Nat) : Option (List Nat) :=
  some (stubBytes ep)

/-- Section characteristics of the injected `.presel` section
(lines 584-586). -/
def PRESEL_ACCESS : Nat := 0xE0000060

/-- Stage 3 of `writeOutputFile` (lines 542-565): locate the reloc section,
rebuild the directory into its buffer, refresh virtual size and directory
size, pad to 512 bytes, refresh the raw size, revalidate. -/
def embedStage (pf : PeFile) (secs : List PeSectionContents) :
    Option (PeFile × List PeSectionContents) :=
  match getSectionByRVA secs pf.peHeader.iddBaseRelocRva 4 with
  | none => none
  | some m =>
    match secs[m]? with
    | none => none
    | some relocSec =>
      let d1 := rebuildRelocData pf.relocBlocks
      let ph1 := updateSectionHeaderAt pf.peHeader relocSec.index
        (fun s => { s with virtualSize := d1.length })
      let ph2 := { ph1 with iddBaseRelocSize := d1.length }
      let d2 := pad512 d1
      let ph3 := updateSectionHeaderAt ph2 relocSec.index
        (fun s => { s with sizeOfRawData := d2.length })
      let ph4 := makeValid ph3 pf.mzHeader.addressOfPeHeader
      some ({ pf with peHeader := ph4 }, secs.set m { relocSec with data := d2 })

/-- Stage 4 of `writeOutputFile` (lines 567-601, Win10 mode): prepare the
stub, allocate a `.presel` section, add a second `.presel` header row,
retarget the entry point at the allocated section's RVA, and append the
stub bytes to that section's buffer. -/
def injectStubStage (pf : PeFile) (secs pool : List PeSectionContents) :
    Option (PeFile × List PeSectionContents × List PeSectionContents) :=
  let ep := pf.peHeader.addressOfEntryPoint
  match prepareStub ep with
  | none => none
  | some bytes =>
    let ar := allocSection pf.peHeader secs pool pf.mzHeader.addressOfPeHeader
      (".presel") bytes.length PRESEL_ACCESS
    let sc := ar.contents.getD ar.pos default
    let ph5 := addSectionHeader ar.header (".presel") bytes.length
    let ph6 := { ph5 with addressOfEntryPoint := sc.RVA }
    let secsFinal := ar.contents.set ar.pos { sc with data := pushBytes bytes sc.data }
    some ({ pf with peHeader := ph6 }, secsFinal, ar.pool)

/-- `PeRecompiler::writeOutputFile` (lines 429-623).  The final header and
section writes are pure output and do not change the state. -/
def writeOutputFile (st : PeRecompiler) : Bool × PeRecompiler :=
  match st.peFile with
  | none => (false, st)
  | some pf =>
    if st.sectionContents.length = 0 then (false, st)
    else
      let packDelta := sub32 ACTUALIZED_BASE_ADDRESS pf.peHeader.imageBase
      let s1 := runRewrites st packDelta
      let st1 := s1.1
      let pbs := s1.2
      match st1.peFile with
      | none => (false, st1)
      | some pf1 =>
        if pbs.length ≠ 0 ∧ pf1.relocBlocks.length ≠ 0 then (false, st1)
        else
          let pf2 :=
            if pbs.length ≠ 0 then
              { pf1 with relocBlocks := pf1.relocBlocks ++ emitPackedBlocks pbs }
            else pf1
          match embedStage pf2 st1.sectionContents with
          | none => (false, { st1 with peFile := some pf2 })
          | some (pf3, secs3) =>
            if st1.shouldUseWin10Attack then
              match injectStubStage pf3 secs3 st1.sectionPool with
              | none => (false, { st1 with peFile := some pf3, sectionContents := secs3 })
              | some (pf4, secs4, pool4) =>
                let stOut := { st1 with peFile := some pf4, sectionContents := secs4, sectionPool := pool4 }
                (true, stOut)
            else
              (true, { st1 with peFile := some pf3, sectionContents := secs3 })

/-- Section-header list of the state's PE file (empty when no file is
loaded). -/
def stHeaderSections (st : PeRecompiler) : List SectionHeader :=
  match st.peFile with
  | none => []
  | some pf => pf.peHeader.sections

/-- DLL characteristics of the state's PE file (0 when no file is loaded). -/
def stDllCharacteristics (st : PeRecompiler) : Nat :=
  match st.peFile with
  | none => 0
  | some pf => pf.peHeader.dllCharacteristics

/-- Image base of the state's PE file (0 when no file is loaded). -/
def stImageBase (st : PeRecompiler) : Nat :=
  match st.peFile with
  | none => 0
  | some pf => pf.peHeader.imageBase

/-- Entry point of the state's PE file (0 when no file is loaded). -/
def stEntryPoint (st : PeRecompiler) : Nat :=
  match st.peFile with
  | none => 0
  | some pf => pf.peHeader.addressOfEntryPoint

/-- Relocation block count of the state's PE file, PeLib's
`calcNumberOfRelocations` (0 when no file is loaded). -/
def stRelocBlockCount (st : PeRecompiler) : Nat :=
  match st.peFile with
  | none => 0
  | some pf => pf.relocBlocks.length

/-- The 32-bit values the IAT scan loop of `rewriteImports` reads, with the
same fuel convention as `hnGo`. -/
def iatValuesGo (data : List Nat) : Nat → Nat → Nat → List Nat
  | 0, _, _ => []
  | fuel + 1, imp, stop =>
    if imp < stop then
      match getData data imp with
      | none => []
      | some v => v :: iatValuesGo data fuel (imp + 4) stop
    else []

/-- The 32-bit values the IAT scan loop reads from `imp` up to `stop`. -/
def iatValues (data : List Nat) (imp stop : Nat) : List Nat :=
  iatValuesGo data (stop - imp) imp stop

/-- Pure fold form of the lowest/highest scan of `rewriteImports`, over the
value list instead of the buffer. -/
def hnFold : Nat × Nat → List Nat → Nat × Nat
  | s, [] => s
  | (lo, hi), v :: rest =>
    if v = 0 then hnFold (lo, hi) rest
    else if v < lo then hnFold (v, hi) rest
    else if hi < v then hnFold (lo, v) rest
    else hnFold (lo, hi) rest

/-- Minimum of the non-zero slot values, following the spec's words for the
Hints/Names range (the loop's initial lowest value when there are none). -/
def specMinNonzero (vals : List Nat) : Nat :=
  (vals.filter (fun v => v ≠ 0)).foldl min 0xFFFFFFFF

/-- Maximum of the non-zero slot values, following the spec's words for the
Hints/Names range (the loop's initial highest value 0 when there are none). -/
def specMaxNonzero (vals : List Nat) : Nat :=
  (vals.filter (fun v => v ≠ 0)).foldl max 0

/-- Concrete 20-byte `.text` section for the scenario states: the 4-byte
window at buffer offset 16 (RVA 0x1010) holds `0x00401234`. -/
def exTextSection : PeSectionContents :=
  { index := 0, RVA := 4096, size := 20, rawPointer := 512, virtualSize := 20,
    name := ".text", data := List.replicate 16 0 ++ [0x34, 0x12, 0x40, 0x00] }

/-- Concrete PE file of the scenario states: image base `0x00400000`, ASLR
enabled, one `.text` section, and the given relocation directory. -/
def exPeFile (blocks : List RelocBlock) : PeFile :=
  { mzHeader := { addressOfPeHeader := 128 },
    peHeader :=
      { dllCharacteristics := 0x140, imageBase := 0x400000, addressOfEntryPoint := 0x1010,
        iddBaseRelocRva := 0, iddBaseRelocSize := 0, iddIatRva := 0, iddIatSize := 0,
        iddImportRva := 0, iddImportSize := 0,
        sections := [{ name := ".text", virtualSize := 20, virtualAddress := 4096,
                       sizeOfRawData := 20, pointerToRawData := 512, characteristics := 0 }] },
    relocBlocks := blocks }

/-- Concrete recompiler state over `exPeFile`. -/
def exState (blocks : List RelocBlock) (win10 : Bool) : PeRecompiler :=
  { peFile := some (exPeFile blocks), sectionContents := [exTextSection], sectionPool := [],
    rewriteBlocks := [], multiPass := false, shouldUseWin10Attack := win10 }

/-- Scenario S1: a single HIGHLOW relocation at page RVA 0x1000, page
offset 0x10. -/
def s1State : PeRecompiler :=
  exState [{ virtualAddress := 4096, sizeOfBlock := 10, entries := [0x3010] }] false

/-- S1 with the relocation entry duplicated: the same window is relocated
twice. -/
def dupEntryState : PeRecompiler :=
  exState [{ virtualAddress := 4096, sizeOfBlock := 12, entries := [0x3010, 0x3010] }] false

/-- S1 with a type-1 (`IMAGE_REL_BASED_HIGH`) relocation entry instead of
type 3. -/
def type1State : PeRecompiler :=
  exState [{ virtualAddress := 4096, sizeOfBlock := 10, entries := [0x1010] }] false

/-- S1 with the Win10-attack flag set. -/
def win10State : PeRecompiler :=
  exState [{ virtualAddress := 4096, sizeOfBlock := 10, entries := [0x3010] }] true

/-- Concrete PE file whose image base is already `TRICKY_BASE_ADDRESS` and
whose relocation directory is empty: the post-rebase shape the emitter
expects.  Two sections, `.reloc` last. -/
def packPeFile : PeFile :=
  { mzHeader := { addressOfPeHeader := 128 },
    peHeader :=
      { dllCharacteristics := 0x100, imageBase := 0xFFFF0000, addressOfEntryPoint := 0x1010,
        iddBaseRelocRva := 8192, iddBaseRelocSize := 16, iddIatRva := 0, iddIatSize := 0,
        iddImportRva := 0, iddImportSize := 0,
        sections := [{ name := ".text", virtualSize := 16, virtualAddress := 4096,
                       sizeOfRawData := 16, pointerToRawData := 512, characteristics := 0 },
                     { name := ".reloc", virtualSize := 16, virtualAddress := 8192,
                       sizeOfRawData := 512, pointerToRawData := 1024, characteristics := 0 }] },
    relocBlocks := [] }

/-- Concrete `.text` contents for `packPeFile`: the window at offset 0
holds `0x00401234`, the window at offset 4 holds `0x09090909`. -/
def packTextSection : PeSectionContents :=
  { index := 0, RVA := 4096, size := 16, rawPointer := 512, virtualSize := 16,
    name := ".text", data := [0x34, 0x12, 0x40, 0x00, 9, 9, 9, 9, 0, 0, 0, 0, 0, 0, 0, 0] }

/-- Concrete `.reloc` contents for `packPeFile`. -/
def packRelocSection : PeSectionContents :=
  { index := 1, RVA := 8192, size := 512, rawPointer := 1024, virtualSize := 16,
    name := ".reloc", data := List.replicate 512 0 }

/-- Concrete emitter state over `packPeFile` with the given rewrite queue. -/
def packState (blocks : List RewriteBlock) (win10 : Bool) : PeRecompiler :=
  { peFile := some packPeFile, sectionContents := [packTextSection, packRelocSection],
    sectionPool := [], rewriteBlocks := blocks, multiPass := false,
    shouldUseWin10Attack := win10 }

/-- Concrete IAT-holding section whose non-zero 32-bit slots are `[2, 1]`:
the maximum comes first. -/
def descIatSection : PeSectionContents :=
  { index := 0, RVA := 4096, size := 8, rawPointer := 512, virtualSize := 8,
    name := ".idata", data := [2, 0, 0, 0, 1, 0, 0, 0] }

/-- Concrete IAT-holding section whose non-zero 32-bit slots are `[1, 2]`:
the minimum comes first. -/
def ascIatSection : PeSectionContents :=
  { index := 0, RVA := 4096, size := 8, rawPointer := 512, virtualSize := 8,
    name := ".idata", data := [1, 0, 0, 0, 2, 0, 0, 0] }

/-- Fully empty recompiler state: no PE file loaded. -/
def emptyState : PeRecompiler :=
  { peFile := none, sectionContents := [], sectionPool := [], rewriteBlocks := [],
    multiPass := false, shouldUseWin10Attack := false }

/-- State over a PE file without the `DYNAMIC_BASE` characteristic. -/
def noAslrState : PeRecompiler :=
  { exState [] false with
      peFile := some { exPeFile [] with
        peHeader := { (exPeFile []).peHeader with dllCharacteristics := 0x100 } } }

/-- State over a PE file without `DYNAMIC_BASE`, Win10-attack flag set. -/
def noAslrWin10State : PeRecompiler :=
  { noAslrState with shouldUseWin10Attack := true }

/-- Geometry of a section: the pair its lookup predicate depends on. -/
def secGeom (sec : PeSectionContents) : Nat × Nat :=
  (sec.RVA, sec.size)

/-- Two contents lists with pointwise equal geometry: section lookups by
RVA agree on them. -/
def sameGeom (a b : List PeSectionContents) : Prop :=
  a.length = b.length ∧ ∀ j : Nat, (a[j]?).map secGeom = (b[j]?).map secGeom

/-- Disjointness of the 4-byte windows at buffer offsets `a` and `b`. -/
def disjointW (a b : Nat) : Prop :=
  a + 4 ≤ b ∨ b + 4 ≤ a

/-- Section-buffer offset of a relocation entry: the entry address
`blockRVA + (e & 0x0FFF)` relative to the section RVA, in `uint32_t`
arithmetic as in the source. -/
def relocSi (blockRVA e secRVA : Nat) : Nat :=
  sub32 (add32 blockRVA (e &&& 0x0FFF)) secRVA

/-- Header after the rebase stage of `performOnDiskRelocations`: the three
characteristics branches (lines 205-224) followed by the image-base branch
(lines 227-235). -/
def rebasedHeader (win10 : Bool) (ph : PeHeader) : PeHeader :=
  let characteristics := ph.dllCharacteristics
  let ph1 :=
    if ¬ win10 then { ph with dllCharacteristics := characteristics &&& 0xFFFFFFBF }
    else if characteristics &&& IMAGE_DLLCHARACTERISTICS_DYNAMIC_BASE ≠ 0 then ph
    else { ph with dllCharacteristics :=
      characteristics &&& IMAGE_DLLCHARACTERISTICS_DYNAMIC_BASE }
  if ¬ win10 then { ph1 with imageBase := TRICKY_BASE_ADDRESS } else ph1

/-- The next-section placement RVA of `addSectionHeader`: the next
4 KiB-aligned address past the last section header row. -/
def nextSectionRVA (ph : PeHeader) : Nat :=
  match ph.sections.getLast? with
  | none => 4096
  | some s => alignUp (s.virtualAddress + max s.virtualSize 1) 4096

theorem sub32_lt (a b : Nat) : sub32 a b < 4294967296 := by
  unfold sub32
  exact Nat.mod_lt _ (by norm_num)

theorem add32_lt (a b : Nat) : add32 a b < 4294967296 := by
  unfold add32
  exact Nat.mod_lt _ (by norm_num)

theorem sub32_self (a : Nat) : sub32 a a = 0 := by
  unfold sub32
  omega

theorem sub32_add32_add32 (a b c : Nat) (hc : c < 4294967296) :
    sub32 (add32 a (b + c)) (add32 a b) = c := by
  unfold sub32 add32
  omega

theorem getData_some_le {d : List Nat} {o v : Nat} (h : getData d o = some v) :
    o + 4 ≤ d.length := by
  unfold getData at h
  by_cases hle : o + 4 ≤ d.length
  · exact hle
  · simp [hle] at h

theorem getData_lt {d : List Nat} {o v : Nat} (hb : ∀ x ∈ d, x < 256)
    (h : getData d o = some v) : v < 4294967296 := by
  unfold getData at h
  by_cases hle : o + 4 ≤ d.length
  · simp only [hle, if_true, Option.some.injEq] at h
    have g : ∀ i, i < d.length → d.getD i 0 < 256 := by
      intro i hi
      have : d.getD i 0 ∈ d := by
        rw [List.getD_eq_getElem?_getD]
        have : d[i]? = some d[i] := List.getElem?_eq_getElem hi
        rw [this]
        simp [List.getElem_mem hi]
      exact hb _ this
    have h0 := g o (by omega)
    have h1 := g (o + 1) (by omega)
    have h2 := g (o + 2) (by omega)
    have h3 := g (o + 3) (by omega)
    omega
  · simp [hle] at h

theorem length_putData (d : List Nat) (o v : Nat) : (putData d o v).length = d.length := by
  unfold putData
  simp

theorem getD_putData_of_mem {d : List Nat} (o v i : Nat)
    (h : i < o ∨ o + 4 ≤ i) : (putData d o v).getD i 0 = d.getD i 0 := by
  unfold putData
  rw [List.getD_eq_getElem?_getD, List.getD_eq_getElem?_getD]
  rw [List.getElem?_set_ne (by omega), List.getElem?_set_ne (by omega),
    List.getElem?_set_ne (by omega), List.getElem?_set_ne (by omega)]

theorem getData_putData_frame {d : List Nat} (o1 o2 v : Nat)
    (h : o1 + 4 ≤ o2 ∨ o2 + 4 ≤ o1) :
    getData (putData d o2 v) o1 = getData d o1 := by
  unfold getData
  rw [length_putData]
  by_cases hle : o1 + 4 ≤ d.length
  · simp only [hle, if_true]
    rw [getD_putData_of_mem o2 v o1 (by omega), getD_putData_of_mem o2 v (o1 + 1) (by omega),
      getD_putData_of_mem o2 v (o1 + 2) (by omega), getD_putData_of_mem o2 v (o1 + 3) (by omega)]
  · simp [hle]

theorem getD_set_self {d : List Nat} (i a : Nat) (h : i < d.length) :
    (d.set i a).getD i 0 = a := by
  rw [List.getD_eq_getElem?_getD, List.getElem?_set_self h]
  rfl

theorem getData_putData_self {d : List Nat} (o v : Nat) (h : o + 4 ≤ d.length) :
    getData (putData d o v) o = some (v % 4294967296) := by
  unfold getData
  rw [length_putData]
  simp only [h, if_true]
  unfold putData
  have g0 : (((((d.set o (v % 256)).set (o + 1) (v / 256 % 256)).set
      (o + 2) (v / 65536 % 256)).set (o + 3) (v / 16777216 % 256))).getD o 0 = v % 256 := by
    rw [List.getD_eq_getElem?_getD, List.getElem?_set_ne (by omega),
      List.getElem?_set_ne (by omega), List.getElem?_set_ne (by omega),
      List.getElem?_set_self (by simpa using by omega)]
    rfl
  have g1 : (((((d.set o (v % 256)).set (o + 1) (v / 256 % 256)).set
      (o + 2) (v / 65536 % 256)).set (o + 3) (v / 16777216 % 256))).getD (o + 1) 0 =
      v / 256 % 256 := by
    rw [List.getD_eq_getElem?_getD, List.getElem?_set_ne (by omega),
      List.getElem?_set_ne (by omega), List.getElem?_set_self (by simpa using by omega)]
    rfl
  have g2 : (((((d.set o (v % 256)).set (o + 1) (v / 256 % 256)).set
      (o + 2) (v / 65536 % 256)).set (o + 3) (v / 16777216 % 256))).getD (o + 2) 0 =
      v / 65536 % 256 := by
    rw [List.getD_eq_getElem?_getD, List.getElem?_set_ne (by omega),
      List.getElem?_set_self (by simpa using by omega)]
    rfl
  have g3 : (((((d.set o (v % 256)).set (o + 1) (v / 256 % 256)).set
      (o + 2) (v / 65536 % 256)).set (o + 3) (v / 16777216 % 256))).getD (o + 3) 0 =
      v / 16777216 % 256 := by
    rw [List.getD_eq_getElem?_getD, List.getElem?_set_self (by simpa using by omega)]
    rfl
  rw [g0, g1, g2, g3]
  congr 1
  omega

theorem sameGeom_refl (a : List PeSectionContents) : sameGeom a a :=
  ⟨rfl, fun _ => rfl⟩

theorem sameGeom_trans {a b c : List PeSectionContents}
    (h1 : sameGeom a b) (h2 : sameGeom b c) : sameGeom a c :=
  ⟨h1.1.trans h2.1, fun j => (h1.2 j).trans (h2.2 j)⟩

theorem storeWord_length (secs : List PeSectionContents) (k si v : Nat) :
    (storeWord secs k si v).length = secs.length := by
  unfold storeWord
  cases hk : secs[k]? with
  | none => rfl
  | some sec => simp

theorem storeWord_sameGeom (secs : List PeSectionContents) (k si v : Nat) :
    sameGeom secs (storeWord secs k si v) := by
  unfold storeWord
  cases hk : secs[k]? with
  | none => exact sameGeom_refl _
  | some sec =>
    refine ⟨by simp, fun j => ?_⟩
    by_cases hjk : k = j
    · subst hjk
      have hlt : k < secs.length := by
        by_contra hge
        rw [List.getElem?_eq_none (by omega)] at hk
        exact Option.noConfusion hk
      rw [List.getElem?_set_self hlt, hk]
      rfl
    · rw [List.getElem?_set_ne hjk]

theorem sameGeom_getElem?_RVA {a b : List PeSectionContents} (h : sameGeom a b)
    {j : Nat} {seca secb : PeSectionContents}
    (ha : a[j]? = some seca) (hb : b[j]? = some secb) :
    seca.RVA = secb.RVA ∧ seca.size = secb.size := by
  have hmap := h.2 j
  rw [ha, hb] at hmap
  have hgeom : secGeom seca = secGeom secb := Option.some.inj hmap
  exact ⟨congrArg Prod.fst hgeom, congrArg Prod.snd hgeom⟩

theorem sameGeom_isSome {a b : List PeSectionContents} (h : sameGeom a b) (j : Nat) :
    (a[j]?).isSome = (b[j]?).isSome := by
  have := h.2 j
  cases ha : a[j]? with
  | none => rw [ha] at this; cases hb : b[j]? with
    | none => rfl
    | some s => rw [hb] at this; exact Option.noConfusion this
  | some s => rw [ha] at this; cases hb : b[j]? with
    | none => rw [hb] at this; exact Option.noConfusion this
    | some t => rfl

theorem findSection_congr {a b : List PeSectionContents} (h : sameGeom a b)
    (rva size : Nat) : findSection rva size a = findSection rva size b := by
  induction a generalizing b with
  | nil =>
    cases b with
    | nil => rfl
    | cons sb tb => exact absurd h.1 (by simp)
  | cons sa ta ih =>
    cases b with
    | nil => exact absurd h.1 (by simp)
    | cons sb tb =>
      have hgeom0 := h.2 0
      simp only [List.getElem?_cons_zero, Option.map_some] at hgeom0
      have hRVA : sa.RVA = sb.RVA := congrArg Prod.fst (Option.some.inj hgeom0)
      have hsize : sa.size = sb.size := congrArg Prod.snd (Option.some.inj hgeom0)
      have htail : sameGeom ta tb := by
        refine ⟨by have := h.1; simpa using this, fun j => ?_⟩
        have := h.2 (j + 1)
        simpa using this
      unfold findSection
      have hcont : sectionContains rva size sa = sectionContains rva size sb := by
        unfold sectionContains
        rw [hRVA, hsize]
      rw [hcont, ih htail]

theorem getSectionByRVA_congr {a b : List PeSectionContents} (h : sameGeom a b)
    (rva size : Nat) : getSectionByRVA a rva size = getSectionByRVA b rva size := by
  unfold getSectionByRVA
  by_cases hz : rva = 0 ∨ size = 0
  · simp [hz]
  · simp only [hz, if_false]
    exact findSection_congr h rva size

theorem windowAt_storeWord_other {secs : List PeSectionContents} {k1 k si v : Nat}
    (hk : k1 ≠ k) (si1 : Nat) :
    windowAt (storeWord secs k1 si1 v) k si = windowAt secs k si := by
  unfold storeWord windowAt
  cases h1 : secs[k1]? with
  | none => rfl
  | some sec1 => rw [List.getElem?_set_ne hk]

theorem windowAt_storeWord_frame {secs : List PeSectionContents} {k si si1 v : Nat}
    (hd : disjointW si1 si) :
    windowAt (storeWord secs k si1 v) k si = windowAt secs k si := by
  unfold storeWord windowAt
  cases h1 : secs[k]? with
  | none => rw [h1]
  | some sec =>
    have hlt : k < secs.length := by
      by_contra hge
      rw [List.getElem?_eq_none (by omega)] at h1
      exact Option.noConfusion h1
    rw [List.getElem?_set_self hlt]
    exact getData_putData_frame si si1 v (by unfold disjointW at hd; omega)

theorem windowAt_storeWord_self {secs : List PeSectionContents} {k si v : Nat}
    {sec : PeSectionContents} (h1 : secs[k]? = some sec) (hle : si + 4 ≤ sec.data.length) :
    windowAt (storeWord secs k si v) k si = some (v % 4294967296) := by
  unfold storeWord windowAt
  rw [h1]
  have hlt : k < secs.length := by
    by_contra hge
    rw [List.getElem?_eq_none (by omega)] at h1
    exact Option.noConfusion h1
  rw [List.getElem?_set_self hlt]
  exact getData_putData_self si v hle


theorem applyRelocEntry_eq (secs : List PeSectionContents) (k va δ e : Nat) :
    applyRelocEntry secs k va δ e =
      if (e >>> 12) &&& IMAGE_REL_BASED_HIGHLOW ≠ 0 then
        match secs[k]? with
        | none => (false, secs)
        | some sec =>
          match getData sec.data (relocSi va e sec.RVA) with
          | none => (false, secs)
          | some v => (true, storeWord secs k (relocSi va e sec.RVA) (add32 v δ))
      else if (e >>> 12) ≠ 0 then (false, secs)
      else (true, secs) :=
  rfl

theorem applyRelocEntry_snd_of_false {secs : List PeSectionContents} {k va δ e : Nat}
    {s : List PeSectionContents} (h : applyRelocEntry secs k va δ e = (false, s)) :
    s = secs := by
  rw [applyRelocEntry_eq] at h
  split at h
  · split at h
    · simp only [Prod.mk.injEq] at h
      exact h.2.symm
    · split at h
      · simp only [Prod.mk.injEq] at h
        exact h.2.symm
      · simp at h
  · split at h
    · simp only [Prod.mk.injEq] at h
      exact h.2.symm
    · simp at h

theorem applyRelocEntry_sameGeom (secs : List PeSectionContents) (k va δ e : Nat) :
    sameGeom secs (applyRelocEntry secs k va δ e).2 := by
  rw [applyRelocEntry_eq]
  split
  · split
    · exact sameGeom_refl _
    · split
      · exact sameGeom_refl _
      · exact storeWord_sameGeom secs k _ _
  · split
    · exact sameGeom_refl _
    · exact sameGeom_refl _


theorem applyRelocEntry_true_inv {secs : List PeSectionContents} {k va δ e : Nat}
    {s : List PeSectionContents} (h : applyRelocEntry secs k va δ e = (true, s)) :
    s = secs ∨ ∃ sec v, secs[k]? = some sec ∧
      (e >>> 12) &&& IMAGE_REL_BASED_HIGHLOW ≠ 0 ∧
      getData sec.data (relocSi va e sec.RVA) = some v ∧
      s = storeWord secs k (relocSi va e sec.RVA) (add32 v δ) := by
  rw [applyRelocEntry_eq] at h
  split at h
  case isTrue ht =>
    split at h
    case h_1 heq => simp at h
    case h_2 sec heq =>
      split at h
      case h_1 heq2 => simp at h
      case h_2 v heq2 =>
        simp only [Prod.mk.injEq] at h
        exact Or.inr ⟨sec, v, heq, ht, heq2, h.2.symm⟩
  case isFalse ht =>
    split at h
    · simp at h
    · simp only [Prod.mk.injEq] at h
      exact Or.inl h.2.symm

theorem applyRelocEntry_window_frame {secs : List PeSectionContents} {k1 va δ e k si : Nat}
    (h : (e >>> 12) &&& IMAGE_REL_BASED_HIGHLOW ≠ 0 →
      ∀ sec, secs[k1]? = some sec → k1 ≠ k ∨ disjointW (relocSi va e sec.RVA) si) :
    windowAt (applyRelocEntry secs k1 va δ e).2 k si = windowAt secs k si := by
  rcases hres : applyRelocEntry secs k1 va δ e with ⟨b, s⟩
  cases b
  · rw [applyRelocEntry_snd_of_false hres]
  · rcases applyRelocEntry_true_inv hres with heq | ⟨sec, v, hsec, ht, hv, heq⟩
    · rw [heq]
    · subst heq
      rcases h ht sec hsec with hne | hdis
      · exact windowAt_storeWord_other hne _
      · by_cases hk : k1 = k
        · subst hk
          exact windowAt_storeWord_frame hdis
        · exact windowAt_storeWord_other hk _

theorem applyRelocEntry_target {secs : List PeSectionContents} {k va δ e : Nat}
    {sec : PeSectionContents} {v : Nat}
    (h1 : secs[k]? = some sec)
    (ht : (e >>> 12) &&& IMAGE_REL_BASED_HIGHLOW ≠ 0)
    (hv : getData sec.data (relocSi va e sec.RVA) = some v) :
    applyRelocEntry secs k va δ e =
      (true, storeWord secs k (relocSi va e sec.RVA) (add32 v δ)) := by
  rw [applyRelocEntry_eq, if_pos ht, h1]
  show (match getData sec.data (relocSi va e sec.RVA) with
    | none => (false, secs)
    | some v => (true, storeWord secs k (relocSi va e sec.RVA) (add32 v δ))) = _
  rw [hv]

theorem applyRelocEntries_sameGeom (k va δ : Nat) :
    ∀ (es : List Nat) (secs : List PeSectionContents),
      sameGeom secs (applyRelocEntries secs k va δ es).2 := by
  intro es
  induction es with
  | nil => intro secs; exact sameGeom_refl _
  | cons f rest ih =>
    intro secs
    unfold applyRelocEntries
    rcases hres : applyRelocEntry secs k va δ f with ⟨b, s⟩
    have hgeom : sameGeom secs s := by
      have hg := applyRelocEntry_sameGeom secs k va δ f
      rw [hres] at hg
      exact hg
    cases b
    · exact hgeom
    · exact sameGeom_trans hgeom (ih s)

theorem applyRelocEntries_window_frame {k1 va δ k si : Nat} :
    ∀ (es : List Nat) (secs secs0 : List PeSectionContents), sameGeom secs0 secs →
    (∀ f ∈ es, (f >>> 12) &&& IMAGE_REL_BASED_HIGHLOW ≠ 0 →
       ∀ sec0, secs0[k1]? = some sec0 → k1 ≠ k ∨ disjointW (relocSi va f sec0.RVA) si) →
    windowAt (applyRelocEntries secs k1 va δ es).2 k si = windowAt secs k si := by
  intro es
  induction es with
  | nil => intro secs secs0 hg hd; rfl
  | cons f rest ih =>
    intro secs secs0 hg hd
    unfold applyRelocEntries
    rcases hres : applyRelocEntry secs k1 va δ f with ⟨b, s⟩
    have hstep : windowAt s k si = windowAt secs k si := by
      have hframe : windowAt (applyRelocEntry secs k1 va δ f).2 k si = windowAt secs k si := by
        apply applyRelocEntry_window_frame
        intro ht sec hsec
        have hsome : (secs0[k1]?).isSome = true := by
          rw [sameGeom_isSome hg k1, hsec]
          rfl
        rcases Option.isSome_iff_exists.mp hsome with ⟨sec0, hsec0⟩
        have hRVA := (sameGeom_getElem?_RVA hg hsec0 hsec).1
        rcases hd f (by simp) ht sec0 hsec0 with hne | hdis
        · exact Or.inl hne
        · rw [← hRVA]
          exact Or.inr hdis
      rw [hres] at hframe
      exact hframe
    have hgs : sameGeom secs0 s := by
      have hg2 := applyRelocEntry_sameGeom secs k1 va δ f
      rw [hres] at hg2
      exact sameGeom_trans hg hg2
    cases b
    · exact hstep
    · rw [ih s secs0 hgs (fun f2 hf2 => hd f2 (by simp [hf2]))]
      exact hstep


theorem applyRelocEntries_cons (secs : List PeSectionContents) (k va δ f : Nat)
    (rest : List Nat) :
    applyRelocEntries secs k va δ (f :: rest) =
      match applyRelocEntry secs k va δ f with
      | (false, s) => (false, s)
      | (true, s) => applyRelocEntries s k va δ rest :=
  rfl

theorem applyRelocBlocks_cons_eq (secs : List PeSectionContents) (δ : Nat) (rb : RelocBlock)
    (rest : List RelocBlock) :
    applyRelocBlocks secs δ (rb :: rest) =
      match getSectionByRVA secs rb.virtualAddress 4 with
      | none => (false, secs)
      | some k =>
        match applyRelocEntries secs k rb.virtualAddress δ rb.entries with
        | (false, s) => (false, s)
        | (true, s) => applyRelocBlocks s δ rest :=
  rfl

theorem applyRelocBlocks_cons (secs : List PeSectionContents) (δ : Nat) (rb : RelocBlock)
    (rest : List RelocBlock) {k1 : Nat}
    (hlook : getSectionByRVA secs rb.virtualAddress 4 = some k1) :
    applyRelocBlocks secs δ (rb :: rest) =
      match applyRelocEntries secs k1 rb.virtualAddress δ rb.entries with
      | (false, s) => (false, s)
      | (true, s) => applyRelocBlocks s δ rest := by
  rw [applyRelocBlocks_cons_eq, hlook]

theorem applyRelocBlocks_cons_none (secs : List PeSectionContents) (δ : Nat) (rb : RelocBlock)
    (rest : List RelocBlock)
    (hlook : getSectionByRVA secs rb.virtualAddress 4 = none) :
    applyRelocBlocks secs δ (rb :: rest) = (false, secs) := by
  rw [applyRelocBlocks_cons_eq, hlook]

theorem applyRelocBlocks_sameGeom (δ : Nat) :
    ∀ (bs : List RelocBlock) (secs : List PeSectionContents),
      sameGeom secs (applyRelocBlocks secs δ bs).2 := by
  intro bs
  induction bs with
  | nil => intro secs; exact sameGeom_refl _
  | cons rb rest ih =>
    intro secs
    cases hlook : getSectionByRVA secs rb.virtualAddress 4 with
    | none => rw [applyRelocBlocks_cons_none secs δ rb rest hlook]; exact sameGeom_refl _
    | some k1 =>
      rw [applyRelocBlocks_cons secs δ rb rest hlook]
      rcases hres : applyRelocEntries secs k1 rb.virtualAddress δ rb.entries with ⟨b, s⟩
      have hgeom : sameGeom secs s := by
        have hg := applyRelocEntries_sameGeom k1 rb.virtualAddress δ rb.entries secs
        rw [hres] at hg
        exact hg
      cases b
      · exact hgeom
      · exact sameGeom_trans hgeom (ih s)

theorem applyRelocBlocks_window_frame {δ k si : Nat} :
    ∀ (bs : List RelocBlock) (secs secs0 : List PeSectionContents), sameGeom secs0 secs →
    (∀ rb ∈ bs, ∀ k1, getSectionByRVA secs0 rb.virtualAddress 4 = some k1 →
       ∀ f ∈ rb.entries, (f >>> 12) &&& IMAGE_REL_BASED_HIGHLOW ≠ 0 →
         ∀ sec0, secs0[k1]? = some sec0 →
           k1 ≠ k ∨ disjointW (relocSi rb.virtualAddress f sec0.RVA) si) →
    windowAt (applyRelocBlocks secs δ bs).2 k si = windowAt secs k si := by
  intro bs
  induction bs with
  | nil => intro secs secs0 hg hd; rfl
  | cons rb rest ih =>
    intro secs secs0 hg hd
    cases hlook : getSectionByRVA secs rb.virtualAddress 4 with
    | none => rw [applyRelocBlocks_cons_none secs δ rb rest hlook]
    | some k1 =>
      rw [applyRelocBlocks_cons secs δ rb rest hlook]
      have hlook0 : getSectionByRVA secs0 rb.virtualAddress 4 = some k1 :=
        (getSectionByRVA_congr hg rb.virtualAddress 4).trans hlook
      rcases hres : applyRelocEntries secs k1 rb.virtualAddress δ rb.entries with ⟨b, s⟩
      have hstep : windowAt s k si = windowAt secs k si := by
        have hframe := @applyRelocEntries_window_frame k1 rb.virtualAddress δ k si
          rb.entries secs secs0 hg
          (fun f hf ht sec0 hsec0 => hd rb (by simp) k1 hlook0 f hf ht sec0 hsec0)
        rw [hres] at hframe
        exact hframe
      have hgs : sameGeom secs0 s := by
        have hg2 := applyRelocEntries_sameGeom k1 rb.virtualAddress δ rb.entries secs
        rw [hres] at hg2
        exact sameGeom_trans hg hg2
      cases b
      · exact hstep
      · rw [ih s secs0 hgs (fun rb2 hrb2 => hd rb2 (by simp [hrb2]))]
        exact hstep

theorem applyRelocEntries_append (k va δ : Nat) (a b : List Nat) :
    ∀ secs : List PeSectionContents,
    applyRelocEntries secs k va δ (a ++ b) =
      match applyRelocEntries secs k va δ a with
      | (false, s) => (false, s)
      | (true, s) => applyRelocEntries s k va δ b := by
  induction a with
  | nil => intro secs; rfl
  | cons f rest ih =>
    intro secs
    rw [show (f :: rest) ++ b = f :: (rest ++ b) from rfl,
      applyRelocEntries_cons secs k va δ f (rest ++ b),
      applyRelocEntries_cons secs k va δ f rest]
    rcases hres : applyRelocEntry secs k va δ f with ⟨b1, s⟩
    cases b1
    · rfl
    · exact ih s

theorem applyRelocBlocks_append (δ : Nat) (a b : List RelocBlock) :
    ∀ secs : List PeSectionContents,
    applyRelocBlocks secs δ (a ++ b) =
      match applyRelocBlocks secs δ a with
      | (false, s) => (false, s)
      | (true, s) => applyRelocBlocks s δ b := by
  induction a with
  | nil => intro secs; rfl
  | cons rb rest ih =>
    intro secs
    cases hlook : getSectionByRVA secs rb.virtualAddress 4 with
    | none =>
      rw [show rb :: rest ++ b = rb :: (rest ++ b) from rfl,
        applyRelocBlocks_cons_none secs δ rb (rest ++ b) hlook,
        applyRelocBlocks_cons_none secs δ rb rest hlook]
    | some k1 =>
      rw [show rb :: rest ++ b = rb :: (rest ++ b) from rfl,
        applyRelocBlocks_cons secs δ rb (rest ++ b) hlook,
        applyRelocBlocks_cons secs δ rb rest hlook]
      rcases hres : applyRelocEntries secs k1 rb.virtualAddress δ rb.entries with ⟨b1, s⟩
      cases b1
      · rfl
      · exact ih s

theorem clearRelocLoop_eq_nil (bs : List RelocBlock) : clearRelocLoop bs = [] := by
  induction bs with
  | nil => rfl
  | cons b rest ih => exact ih

theorem performOnDiskRelocations_some (st : PeRecompiler) (pf : PeFile)
    (hpf : st.peFile = some pf) :
    performOnDiskRelocations st =
      if st.sectionContents.length = 0 then (false, st)
      else if pf.peHeader.dllCharacteristics &&& IMAGE_DLLCHARACTERISTICS_DYNAMIC_BASE ≠
          IMAGE_DLLCHARACTERISTICS_DYNAMIC_BASE then (false, st)
      else
        match applyRelocBlocks st.sectionContents
            (sub32 ACTUALIZED_BASE_ADDRESS pf.peHeader.imageBase) pf.relocBlocks with
        | (false, secs1) =>
          let pfFail := { pf with peHeader := rebasedHeader st.shouldUseWin10Attack pf.peHeader }
          (false, { st with peFile := some pfFail, sectionContents := secs1 })
        | (true, secs1) =>
          let pfOk := { pf with
            peHeader := rebasedHeader st.shouldUseWin10Attack pf.peHeader
            relocBlocks := clearRelocLoop pf.relocBlocks }
          (true, { st with peFile := some pfOk, sectionContents := secs1 }) := by
  unfold performOnDiskRelocations
  rw [hpf]
  rfl

theorem performOnDiskRelocations_true_inv {st st' : PeRecompiler} {pf : PeFile}
    (hpf : st.peFile = some pf) (hrun : performOnDiskRelocations st = (true, st')) :
    applyRelocBlocks st.sectionContents
        (sub32 ACTUALIZED_BASE_ADDRESS pf.peHeader.imageBase) pf.relocBlocks =
      (true, st'.sectionContents) := by
  rw [performOnDiskRelocations_some st pf hpf] at hrun
  split at hrun
  · simp at hrun
  · split at hrun
    · simp at hrun
    · split at hrun
      case h_1 heq => simp at hrun
      case h_2 secs1 heq =>
        simp only [Prod.mk.injEq] at hrun
        rw [heq]
        have hsecs : st'.sectionContents = secs1 := by
          rw [← hrun.2]
        rw [hsecs]

theorem windowAt_eq_getData {secs : List PeSectionContents} {k si : Nat}
    {sec : PeSectionContents} (hsec : secs[k]? = some sec) :
    windowAt secs k si = getData sec.data si := by
  unfold windowAt
  rw [hsec]

theorem applyRelocEntries_append_false {k va δ : Nat} {a : List Nat}
    {secs s : List PeSectionContents} (b : List Nat)
    (h : applyRelocEntries secs k va δ a = (false, s)) :
    applyRelocEntries secs k va δ (a ++ b) = (false, s) := by
  rw [applyRelocEntries_append k va δ a b secs, h]

theorem applyRelocEntries_append_true {k va δ : Nat} {a : List Nat}
    {secs s : List PeSectionContents} (b : List Nat)
    (h : applyRelocEntries secs k va δ a = (true, s)) :
    applyRelocEntries secs k va δ (a ++ b) = applyRelocEntries s k va δ b := by
  rw [applyRelocEntries_append k va δ a b secs, h]

theorem applyRelocBlocks_append_false {δ : Nat} {a : List RelocBlock}
    {secs s : List PeSectionContents} (b : List RelocBlock)
    (h : applyRelocBlocks secs δ a = (false, s)) :
    applyRelocBlocks secs δ (a ++ b) = (false, s) := by
  rw [applyRelocBlocks_append δ a b secs, h]

theorem applyRelocBlocks_append_true {δ : Nat} {a : List RelocBlock}
    {secs s : List PeSectionContents} (b : List RelocBlock)
    (h : applyRelocBlocks secs δ a = (true, s)) :
    applyRelocBlocks secs δ (a ++ b) = applyRelocBlocks s δ b := by
  rw [applyRelocBlocks_append δ a b secs, h]

/-- C1 (amended): for every input PE and byte position `p` inside a loaded
section that appears in the original `.reloc` directory as an entry of
type `FIXUP_TYPE` (3), if `performOnDiskRelocations` returns success and
the 4-byte window of `p` is disjoint from the window of every *other*
applied relocation entry (an entry whose 4-bit type has a non-zero low two
bits) that resolves to the same section, then the 32-bit little-endian
value at `p` afterwards equals the original 32-bit value at `p` plus
`ACTUAL_BASE - original_image_base`, with 32-bit wraparound semantics.
The disjointness premise is forced by `c1_counterexample`: a duplicated
entry is relocated twice. -/
theorem c1_round_trip
    {st st' : PeRecompiler} {pf : PeFile} {B1 B2 : List RelocBlock} {rb : RelocBlock}
    {E1 E2 : List Nat} {e k v : Nat} {sec : PeSectionContents}
    (hpf : st.peFile = some pf)
    (hrun : performOnDiskRelocations st = (true, st'))
    (hblocks : pf.relocBlocks = B1 ++ rb :: B2)
    (hentries : rb.entries = E1 ++ e :: E2)
    (htype : e >>> 12 = IMAGE_REL_BASED_HIGHLOW)
    (hlook : getSectionByRVA st.sectionContents rb.virtualAddress 4 = some k)
    (hsec : st.sectionContents[k]? = some sec)
    (hv : getData sec.data (relocSi rb.virtualAddress e sec.RVA) = some v)
    (hdisjB : ∀ rb2 ∈ B1 ++ B2, ∀ k1,
       getSectionByRVA st.sectionContents rb2.virtualAddress 4 = some k1 →
       ∀ f ∈ rb2.entries, (f >>> 12) &&& IMAGE_REL_BASED_HIGHLOW ≠ 0 →
       ∀ sec1, st.sectionContents[k1]? = some sec1 →
         k1 ≠ k ∨ disjointW (relocSi rb2.virtualAddress f sec1.RVA)
           (relocSi rb.virtualAddress e sec.RVA))
    (hdisjE : ∀ f ∈ E1 ++ E2, (f >>> 12) &&& IMAGE_REL_BASED_HIGHLOW ≠ 0 →
       disjointW (relocSi rb.virtualAddress f sec.RVA)
         (relocSi rb.virtualAddress e sec.RVA)) :
    windowAt st'.sectionContents k (relocSi rb.virtualAddress e sec.RVA) =
      some (add32 v (sub32 ACTUALIZED_BASE_ADDRESS pf.peHeader.imageBase)) := by
  set δ := sub32 ACTUALIZED_BASE_ADDRESS pf.peHeader.imageBase with hδdef
  set si := relocSi rb.virtualAddress e sec.RVA with hsidef
  have happ0 : applyRelocBlocks st.sectionContents δ (B1 ++ rb :: B2) =
      (true, st'.sectionContents) := by
    have h0 := performOnDiskRelocations_true_inv hpf hrun
    rw [hblocks] at h0
    exact h0
  rcases hB1 : applyRelocBlocks st.sectionContents δ B1 with ⟨b1, s1⟩
  cases b1
  case false =>
    rw [applyRelocBlocks_append_false (rb :: B2) hB1] at happ0
    simp at happ0
  case true =>
  rw [applyRelocBlocks_append_true (rb :: B2) hB1] at happ0
  have hg1 : sameGeom st.sectionContents s1 := by
    have hg := applyRelocBlocks_sameGeom δ B1 st.sectionContents
    rw [hB1] at hg
    exact hg
  have hlook1 : getSectionByRVA s1 rb.virtualAddress 4 = some k :=
    (getSectionByRVA_congr hg1 rb.virtualAddress 4).symm.trans hlook
  rw [applyRelocBlocks_cons s1 δ rb B2 hlook1, hentries] at happ0
  rcases hE1 : applyRelocEntries s1 k rb.virtualAddress δ E1 with ⟨b2, s2⟩
  cases b2
  case false =>
    rw [applyRelocEntries_append_false (e :: E2) hE1] at happ0
    simp at happ0
  case true =>
  rw [applyRelocEntries_append_true (e :: E2) hE1] at happ0
  have hg2 : sameGeom st.sectionContents s2 := by
    have hg := applyRelocEntries_sameGeom k rb.virtualAddress δ E1 s1
    rw [hE1] at hg
    exact sameGeom_trans hg1 hg
  have hsec2some : (s2[k]?).isSome = true := by
    rw [← sameGeom_isSome hg2 k, hsec]
    rfl
  rcases Option.isSome_iff_exists.mp hsec2some with ⟨sec2, hsec2⟩
  have hRVA2 : sec.RVA = sec2.RVA := (sameGeom_getElem?_RVA hg2 hsec hsec2).1
  have hsieq : relocSi rb.virtualAddress e sec2.RVA = si := by
    rw [hsidef, ← hRVA2]
  have w0 : windowAt st.sectionContents k si = some v := by
    rw [windowAt_eq_getData hsec, hsidef]
    exact hv
  have w1 : windowAt s1 k si = some v := by
    have hframe := @applyRelocBlocks_window_frame δ k si B1 st.sectionContents
      st.sectionContents (sameGeom_refl _)
      (fun rb2 hrb2 k1 hk1 f hf ht sec1 hsec1 =>
        hdisjB rb2 (List.mem_append_left _ hrb2) k1 hk1 f hf ht sec1 hsec1)
    rw [hB1] at hframe
    exact hframe.trans w0
  have w2 : windowAt s2 k si = some v := by
    have hframe := @applyRelocEntries_window_frame k rb.virtualAddress δ k si E1 s1
      st.sectionContents hg1
      (fun f hf ht sec0 hsec0 => by
        have hsec0eq : sec0 = sec := by
          rw [hsec] at hsec0
          exact (Option.some.inj hsec0).symm
        subst hsec0eq
        exact Or.inr (hdisjE f (List.mem_append_left _ hf) ht))
    rw [hE1] at hframe
    exact hframe.trans w1
  have hgd2 : getData sec2.data (relocSi rb.virtualAddress e sec2.RVA) = some v := by
    rw [hsieq]
    rw [windowAt_eq_getData hsec2] at w2
    exact w2
  have htne : (e >>> 12) &&& IMAGE_REL_BASED_HIGHLOW ≠ 0 := by
    rw [htype]
    decide
  have htgt := @applyRelocEntry_target s2 k rb.virtualAddress δ e sec2 v hsec2 htne hgd2
  rw [hsieq] at htgt
  have e3b : applyRelocEntries s2 k rb.virtualAddress δ (e :: E2) =
      applyRelocEntries (storeWord s2 k si (add32 v δ)) k rb.virtualAddress δ E2 := by
    rw [applyRelocEntries_cons s2 k rb.virtualAddress δ e E2, htgt]
  rw [e3b] at happ0
  have hle2 : si + 4 ≤ sec2.data.length := by
    rw [← hsieq]
    exact getData_some_le hgd2
  have w3 : windowAt (storeWord s2 k si (add32 v δ)) k si = some (add32 v δ) := by
    rw [windowAt_storeWord_self hsec2 hle2]
    rw [Nat.mod_eq_of_lt (add32_lt v δ)]
  have hg3 : sameGeom st.sectionContents (storeWord s2 k si (add32 v δ)) :=
    sameGeom_trans hg2 (storeWord_sameGeom s2 k si (add32 v δ))
  rcases hE2 : applyRelocEntries (storeWord s2 k si (add32 v δ)) k rb.virtualAddress δ E2
    with ⟨b3, s4⟩
  cases b3
  case false =>
    rw [hE2] at happ0
    have hcons := applyRelocBlocks_cons_eq (storeWord s2 k si (add32 v δ)) δ rb B2
    simp at happ0
  case true =>
  rw [hE2] at happ0
  have happ1 : applyRelocBlocks s4 δ B2 = (true, st'.sectionContents) := happ0
  have w4 : windowAt s4 k si = some (add32 v δ) := by
    have hframe := @applyRelocEntries_window_frame k rb.virtualAddress δ k si E2
      (storeWord s2 k si (add32 v δ)) st.sectionContents hg3
      (fun f hf ht sec0 hsec0 => by
        have hsec0eq : sec0 = sec := by
          rw [hsec] at hsec0
          exact (Option.some.inj hsec0).symm
        subst hsec0eq
        exact Or.inr (hdisjE f (List.mem_append_right _ (by simp [hf])) ht))
    rw [hE2] at hframe
    exact hframe.trans w3
  have hg4 : sameGeom st.sectionContents s4 := by
    have hg := applyRelocEntries_sameGeom k rb.virtualAddress δ E2
      (storeWord s2 k si (add32 v δ))
    rw [hE2] at hg
    exact sameGeom_trans hg3 hg
  have hfinal : windowAt st'.sectionContents k si = windowAt s4 k si := by
    have hframe := @applyRelocBlocks_window_frame δ k si B2 s4 st.sectionContents hg4
      (fun rb2 hrb2 k1 hk1 f hf ht sec1 hsec1 =>
        hdisjB rb2 (List.mem_append_right _ hrb2) k1 hk1 f hf ht sec1 hsec1)
    rw [happ1] at hframe
    exact hframe
  exact hfinal.trans w4

theorem rebasedHeader_win10 (ph : PeHeader)
    (h : ph.dllCharacteristics &&& IMAGE_DLLCHARACTERISTICS_DYNAMIC_BASE ≠ 0) :
    rebasedHeader true ph = ph := by
  unfold rebasedHeader
  simp [h]

theorem perform_flag_absent (st : PeRecompiler) (pf : PeFile) (hpf : st.peFile = some pf)
    (h : pf.peHeader.dllCharacteristics &&& IMAGE_DLLCHARACTERISTICS_DYNAMIC_BASE = 0) :
    performOnDiskRelocations st = (false, st) := by
  rw [performOnDiskRelocations_some st pf hpf]
  by_cases hs : st.sectionContents.length = 0
  · rw [if_pos hs]
  · rw [if_neg hs, if_pos (by rw [h]; decide)]

theorem perform_win10_preserves_header (st : PeRecompiler)
    (hw : st.shouldUseWin10Attack = true) :
    stDllCharacteristics (performOnDiskRelocations st).2 = stDllCharacteristics st ∧
    stImageBase (performOnDiskRelocations st).2 = stImageBase st := by
  cases hpf : st.peFile with
  | none =>
    unfold performOnDiskRelocations
    rw [hpf]
    exact ⟨rfl, rfl⟩
  | some pf =>
    rw [performOnDiskRelocations_some st pf hpf]
    by_cases hs : st.sectionContents.length = 0
    · rw [if_pos hs]
      exact ⟨rfl, rfl⟩
    · rw [if_neg hs]
      by_cases hc : pf.peHeader.dllCharacteristics &&& IMAGE_DLLCHARACTERISTICS_DYNAMIC_BASE ≠
          IMAGE_DLLCHARACTERISTICS_DYNAMIC_BASE
      · rw [if_pos hc]
        exact ⟨rfl, rfl⟩
      · rw [if_neg hc]
        push_neg at hc
        have hcne : pf.peHeader.dllCharacteristics &&&
            IMAGE_DLLCHARACTERISTICS_DYNAMIC_BASE ≠ 0 := by
          rw [hc]
          decide
        have hrb : rebasedHeader st.shouldUseWin10Attack pf.peHeader = pf.peHeader := by
          rw [hw]
          exact rebasedHeader_win10 pf.peHeader hcne
        rcases hab : applyRelocBlocks st.sectionContents
            (sub32 ACTUALIZED_BASE_ADDRESS pf.peHeader.imageBase) pf.relocBlocks with ⟨b, s⟩
        cases b
        · constructor
          · show (rebasedHeader st.shouldUseWin10Attack pf.peHeader).dllCharacteristics =
              stDllCharacteristics st
            rw [hrb]
            unfold stDllCharacteristics
            rw [hpf]
          · show (rebasedHeader st.shouldUseWin10Attack pf.peHeader).imageBase = stImageBase st
            rw [hrb]
            unfold stImageBase
            rw [hpf]
        · constructor
          · show (rebasedHeader st.shouldUseWin10Attack pf.peHeader).dllCharacteristics =
              stDllCharacteristics st
            rw [hrb]
            unfold stDllCharacteristics
            rw [hpf]
          · show (rebasedHeader st.shouldUseWin10Attack pf.peHeader).imageBase = stImageBase st
            rw [hrb]
            unfold stImageBase
            rw [hpf]

theorem perform_true_clears_relocs (st st' : PeRecompiler)
    (hrun : performOnDiskRelocations st = (true, st')) :
    stRelocBlockCount st' = 0 := by
  cases hpf : st.peFile with
  | none =>
    unfold performOnDiskRelocations at hrun
    rw [hpf] at hrun
    simp at hrun
  | some pf =>
    rw [performOnDiskRelocations_some st pf hpf] at hrun
    split at hrun
    · simp at hrun
    · split at hrun
      · simp at hrun
      · split at hrun
        case h_1 heq => simp at hrun
        case h_2 secs1 heq =>
          simp only [Prod.mk.injEq] at hrun
          rw [← hrun.2]
          show (clearRelocLoop pf.relocBlocks).length = 0
          rw [clearRelocLoop_eq_nil]
          rfl

theorem rewriteHeader_win10_no_block (st : PeRecompiler)
    (hw : st.shouldUseWin10Attack = true) :
    (rewriteHeader st).2 = st := by
  unfold rewriteHeader
  by_cases hc : ¬ doRewriteReadyCheck st = true
  · rw [if_pos hc]
  · rw [if_neg hc, if_neg (by rw [hw]; simp)]

/-- C9: the `characteristics & DYNAMIC_BASE` branch of
`performOnDiskRelocations` (lines 217-224) is unreachable: whenever the
`DYNAMIC_BASE` bit is absent the operation already fails at the line-187
check, in standard and Win10 mode alike, returning `false` with the state
untouched; consequently the DLL characteristics are never modified when
the Win10 flag is set. -/
theorem c9_dynamic_base_branch_unreachable :
    (∀ (st : PeRecompiler) (pf : PeFile), st.peFile = some pf →
       pf.peHeader.dllCharacteristics &&& IMAGE_DLLCHARACTERISTICS_DYNAMIC_BASE = 0 →
       performOnDiskRelocations st = (false, st)) ∧
    (∀ st : PeRecompiler, st.shouldUseWin10Attack = true →
       stDllCharacteristics (performOnDiskRelocations st).2 = stDllCharacteristics st) :=
  ⟨perform_flag_absent, fun st hw => (perform_win10_preserves_header st hw).1⟩

/-- C9 witness: a concrete PE without `DYNAMIC_BASE` is rejected untouched
(in both modes), and a concrete Win10-mode run leaves the characteristics
unchanged. -/
theorem c9_witness :
    performOnDiskRelocations noAslrState = (false, noAslrState) ∧
    performOnDiskRelocations noAslrWin10State = (false, noAslrWin10State) ∧
    stDllCharacteristics (performOnDiskRelocations win10State).2 =
      stDllCharacteristics win10State :=
  ⟨c9_dynamic_base_branch_unreachable.1 noAslrState _ rfl (by decide),
   c9_dynamic_base_branch_unreachable.1 noAslrWin10State _ rfl (by decide),
   c9_dynamic_base_branch_unreachable.2 win10State rfl⟩

/-- C3 (amended): when the Win10-attack flag is set,
`performOnDiskRelocations` does not clear the `DYNAMIC_BASE`
characteristic, does not change `ImageBase`, and `rewriteHeader` enqueues
no entry-point rewrite (it leaves the state unchanged); however, contrary
to the original claim, the original relocation table *is* cleared: after
any successful call (Win10 mode included) the relocation block count is 0,
not the original count (forced by `c3_counterexample`). -/
theorem c3_win10_effects :
    (∀ st : PeRecompiler, st.shouldUseWin10Attack = true →
       stDllCharacteristics (performOnDiskRelocations st).2 = stDllCharacteristics st) ∧
    (∀ st : PeRecompiler, st.shouldUseWin10Attack = true →
       stImageBase (performOnDiskRelocations st).2 = stImageBase st) ∧
    (∀ st st' : PeRecompiler, performOnDiskRelocations st = (true, st') →
       stRelocBlockCount st' = 0) ∧
    (∀ st : PeRecompiler, st.shouldUseWin10Attack = true → (rewriteHeader st).2 = st) :=
  ⟨fun st hw => (perform_win10_preserves_header st hw).1,
   fun st hw => (perform_win10_preserves_header st hw).2,
   perform_true_clears_relocs,
   rewriteHeader_win10_no_block⟩

/-- C3 counterexample: on a concrete Win10-mode input with one relocation
block, `performOnDiskRelocations` succeeds and the relocation count drops
from 1 to 0, contradicting the claim that the count is unchanged. -/
theorem c3_counterexample :
    (performOnDiskRelocations win10State).1 = true ∧
    stRelocBlockCount win10State = 1 ∧
    stRelocBlockCount (performOnDiskRelocations win10State).2 = 0 ∧
    ¬ stRelocBlockCount (performOnDiskRelocations win10State).2 =
        stRelocBlockCount win10State := by
  refine ⟨by decide, by decide, by decide, by decide⟩

/-- C3 witness: the amended claim instantiated on the concrete Win10-mode
input. -/
theorem c3_witness :
    stDllCharacteristics (performOnDiskRelocations win10State).2 =
      stDllCharacteristics win10State ∧
    stImageBase (performOnDiskRelocations win10State).2 = stImageBase win10State ∧
    stRelocBlockCount (performOnDiskRelocations win10State).2 = 0 ∧
    (rewriteHeader win10State).2 = win10State :=
  ⟨c3_win10_effects.1 win10State rfl,
   c3_win10_effects.2.1 win10State rfl,
   c3_win10_effects.2.2.1 win10State (performOnDiskRelocations win10State).2 (by decide),
   c3_win10_effects.2.2.2 win10State rfl⟩

/-- C8 (amended): for the S1 input (`ImageBase = 0x00400000`, one `.text`
section at RVA 0x1000, a single `FIXUP_TYPE` relocation whose target holds
`0x00401234`), after `performOnDiskRelocations` the 4-byte window holds
`0x00011234` (`0x00401234 + (0x00010000 - 0x00400000)` with 32-bit
wraparound; the claim's `0xFFC11234` is an arithmetic slip, see
`c8_counterexample`), the header `ImageBase` is `0xFFFF0000`, and the
relocation directory has zero entries. -/
theorem c8_s1_scenario :
    (performOnDiskRelocations s1State).1 = true ∧
    windowAt (performOnDiskRelocations s1State).2.sectionContents 0 16 = some 0x00011234 ∧
    windowAt s1State.sectionContents 0 16 = some 0x00401234 ∧
    stImageBase (performOnDiskRelocations s1State).2 = 0xFFFF0000 ∧
    stRelocBlockCount (performOnDiskRelocations s1State).2 = 0 := by
  refine ⟨by decide, by decide, by decide, by decide, by decide⟩

/-- C8 counterexample: the window after the S1 run holds `0x00011234`, not
the `0xFFC11234` the claim states. -/
theorem c8_counterexample :
    windowAt (performOnDiskRelocations s1State).2.sectionContents 0 16 = some 0x00011234 ∧
    ¬ windowAt (performOnDiskRelocations s1State).2.sectionContents 0 16 =
        some 0xFFC11234 := by
  refine ⟨by decide, by decide⟩

/-- C1 counterexample: with the single `FIXUP_TYPE` entry duplicated in
the directory, `performOnDiskRelocations` succeeds but the window receives
the delta twice, so it does not equal `original + delta`. -/
theorem c1_counterexample :
    (performOnDiskRelocations dupEntryState).1 = true ∧
    windowAt (performOnDiskRelocations dupEntryState).2.sectionContents 0 16 =
      some (add32 (add32 0x00401234 0xFFC10000) 0xFFC10000) ∧
    ¬ windowAt (performOnDiskRelocations dupEntryState).2.sectionContents 0 16 =
        some (add32 0x00401234 (sub32 ACTUALIZED_BASE_ADDRESS 0x00400000)) := by
  refine ⟨by decide, by decide, by decide⟩

/-- C1 witness: the amended round-trip claim instantiated on the S1 input,
where the disjointness premise is vacuous. -/
theorem c1_witness :
    windowAt (performOnDiskRelocations s1State).2.sectionContents 0
      (relocSi 4096 0x3010 exTextSection.RVA) =
      some (add32 0x00401234 (sub32 ACTUALIZED_BASE_ADDRESS 0x00400000)) :=
  @c1_round_trip s1State (performOnDiskRelocations s1State).2 (exPeFile
      [{ virtualAddress := 4096, sizeOfBlock := 10, entries := [0x3010] }])
    [] [] { virtualAddress := 4096, sizeOfBlock := 10, entries := [0x3010] }
    [] [] 0x3010 0 0x00401234 exTextSection
    rfl (by decide) rfl rfl (by decide) (by decide) rfl (by decide)
    (by intro rb2 h; simp at h) (by intro f h; simp at h)

/-- C2 (amended): during `performOnDiskRelocations` a relocation entry has
the delta applied (value + delta written back) iff the low two bits of its
4-bit type are non-zero, because the source tests
`entryType & IMAGE_REL_BASED_HIGHLOW` instead of equality with 3 — so the
types 1, 2, 5, 6, 7, 9, 10, 11, 13, 14, 15 are applied exactly like type 3;
the operation fails with `UnknownRelocType` exactly for the non-zero types
whose low two bits are zero (4, 8, 12); type-0 entries are skipped without
modification and without error.  (The original claim — applied iff type 3,
fatal otherwise — is refuted by `c2_counterexample`.) -/
theorem c2_entry_classification
    {secs : List PeSectionContents} {k va δ e : Nat} {sec : PeSectionContents} {v : Nat}
    (hsec : secs[k]? = some sec)
    (hv : getData sec.data (relocSi va e sec.RVA) = some v) :
    ((e >>> 12) &&& IMAGE_REL_BASED_HIGHLOW ≠ 0 →
       applyRelocEntry secs k va δ e =
         (true, storeWord secs k (relocSi va e sec.RVA) (add32 v δ))) ∧
    (e >>> 12 = 0 → applyRelocEntry secs k va δ e = (true, secs)) ∧
    ((e >>> 12) ≠ 0 → (e >>> 12) &&& IMAGE_REL_BASED_HIGHLOW = 0 →
       applyRelocEntry secs k va δ e = (false, secs)) := by
  refine ⟨fun ht => applyRelocEntry_target hsec ht hv, fun h0 => ?_, fun hne h0 => ?_⟩
  · rw [applyRelocEntry_eq, if_neg (by rw [h0]; decide), if_neg (by rw [h0]; simp)]
  · rw [applyRelocEntry_eq, if_neg (by simp [h0]), if_pos hne]

/-- C2 counterexample: a type-1 (`IMAGE_REL_BASED_HIGH`) entry, which the
claim says must be fatal with `UnknownRelocType`, is instead applied: the
run succeeds and the window is modified. -/
theorem c2_counterexample :
    (performOnDiskRelocations type1State).1 = true ∧
    windowAt (performOnDiskRelocations type1State).2.sectionContents 0 16 =
      some 0x00011234 ∧
    ¬ windowAt (performOnDiskRelocations type1State).2.sectionContents 0 16 =
        windowAt type1State.sectionContents 0 16 := by
  refine ⟨by decide, by decide, by decide⟩

/-- C2 witness: the amended classification instantiated on concrete
entries of type 1 (applied), type 0 (skipped) and type 4 (fatal). -/
theorem c2_witness :
    applyRelocEntry [exTextSection] 0 4096 7 0x1010 =
      (true, storeWord [exTextSection] 0 (relocSi 4096 0x1010 exTextSection.RVA)
        (add32 0x00401234 7)) ∧
    applyRelocEntry [exTextSection] 0 4096 7 0x0010 = (true, [exTextSection]) ∧
    applyRelocEntry [exTextSection] 0 4096 7 0x4010 = (false, [exTextSection]) :=
  ⟨(@c2_entry_classification [exTextSection] 0 4096 7 0x1010 exTextSection 0x00401234
      rfl (by decide)).1 (by decide),
   (@c2_entry_classification [exTextSection] 0 4096 7 0x0010 exTextSection 0x00401234
      rfl (by decide)).2.1 (by decide),
   (@c2_entry_classification [exTextSection] 0 4096 7 0x4010 exTextSection 0x00401234
      rfl (by decide)).2.2 (by decide) (by decide)⟩

theorem doRewriteReadyCheck_some (st : PeRecompiler) (pf : PeFile)
    (hpf : st.peFile = some pf) :
    doRewriteReadyCheck st =
      if st.sectionContents.length = 0 then false
      else if (pf.relocBlocks.length ≠ 0 ∨
          pf.peHeader.imageBase ≠ TRICKY_BASE_ADDRESS) ∧
          ¬ st.shouldUseWin10Attack = true then false
      else true := by
  unfold doRewriteReadyCheck
  rw [hpf]

theorem doRewriteReadyCheck_false (st : PeRecompiler)
    (h : ¬ ∃ pf, st.peFile = some pf ∧ st.sectionContents ≠ [] ∧
        (st.shouldUseWin10Attack = true ∨
          (pf.relocBlocks = [] ∧ pf.peHeader.imageBase = TRICKY_BASE_ADDRESS))) :
    doRewriteReadyCheck st = false := by
  cases hpf : st.peFile with
  | none =>
    unfold doRewriteReadyCheck
    rw [hpf]
  | some pf =>
    rw [doRewriteReadyCheck_some st pf hpf]
    push_neg at h
    have h2 := h pf hpf
    by_cases hs : st.sectionContents.length = 0
    · rw [if_pos hs]
    · rw [if_neg hs]
      have hne : st.sectionContents ≠ [] := by
        intro hnil
        rw [hnil] at hs
        exact hs rfl
      have h3 := h2 hne
      push_neg at h3
      have hleft : pf.relocBlocks.length ≠ 0 ∨
          pf.peHeader.imageBase ≠ TRICKY_BASE_ADDRESS := by
        by_cases hb : pf.relocBlocks = []
        · right
          exact h3.2 hb
        · left
          intro hlen
          exact hb (List.length_eq_zero.mp hlen)
      rw [if_pos ⟨hleft, h3.1⟩]

/-- C6: every collector operation (`rewriteHeader`, `fixupBase`,
`rewriteSection`, `rewriteImports`, `rewriteMatches`) returns `false`
without adding any rewrite block — indeed without changing the state at
all — unless the PE file is loaded, the section contents are loaded, and
either the Win10-attack flag is set or the relocation directory is empty
with `ImageBase = TRICKY_BASE_ADDRESS` (0xFFFF0000). -/
theorem c6_ready_check_guard (st : PeRecompiler) (name : String) (needle : List Nat)
    (h : ¬ ∃ pf, st.peFile = some pf ∧ st.sectionContents ≠ [] ∧
        (st.shouldUseWin10Attack = true ∨
          (pf.relocBlocks = [] ∧ pf.peHeader.imageBase = TRICKY_BASE_ADDRESS))) :
    rewriteHeader st = (false, st) ∧ fixupBase st = (false, st) ∧
    rewriteSection st name = (false, st) ∧ rewriteImports st = (false, st) ∧
    rewriteMatches st needle = (false, st) := by
  have hc : doRewriteReadyCheck st = false := doRewriteReadyCheck_false st h
  have hcn : ¬ doRewriteReadyCheck st = true := by
    rw [hc]
    simp
  refine ⟨?_, ?_, ?_, ?_, ?_⟩
  · unfold rewriteHeader
    rw [if_pos hcn]
  · unfold fixupBase
    rw [if_pos hcn]
  · unfold rewriteSection
    rw [if_pos hcn]
  · unfold rewriteImports
    rw [if_pos hcn]
  · unfold rewriteMatches
    rw [if_pos hcn]

/-- C6 witness: on the state with no PE file loaded, all five collector
operations fail and leave the state unchanged. -/
theorem c6_witness :
    rewriteHeader emptyState = (false, emptyState) ∧
    fixupBase emptyState = (false, emptyState) ∧
    rewriteSection emptyState (".text") = (false, emptyState) ∧
    rewriteImports emptyState = (false, emptyState) ∧
    rewriteMatches emptyState [104, 105] = (false, emptyState) :=
  c6_ready_check_guard emptyState (".text") [104, 105]
    (by rintro ⟨pf, hpf, h2⟩; exact Option.noConfusion hpf)

theorem and_4095_eq_mod (x : Nat) : x &&& 0x0FFF = x % 4096 := by
  have h := Nat.and_pow_two_sub_one_eq_mod x 12
  norm_num at h
  exact h

theorem emit_entry_eq (o : Nat) :
    (IMAGE_REL_BASED_HIGHLOW <<< 12) ||| (o &&& 0x0FFF) = 12288 + o % 4096 := by
  have hand : o &&& 0x0FFF = o % 4096 := and_4095_eq_mod o
  have hshift : (IMAGE_REL_BASED_HIGHLOW <<< 12 : Nat) = 12288 := by decide
  rw [hand, hshift]
  have hblt : o % 4096 < 2 ^ 12 := by
    have := Nat.mod_lt o (show 0 < 4096 by norm_num)
    omega
  calc (12288 : Nat) ||| o % 4096 = 2 ^ 12 * 3 ||| o % 4096 := by norm_num
    _ = 2 ^ 12 * 3 + o % 4096 := (Nat.mul_add_lt_is_or hblt 3).symm
    _ = 12288 + o % 4096 := by norm_num

theorem emit_entry_pos (o : Nat) :
    (IMAGE_REL_BASED_HIGHLOW <<< 12) ||| (o &&& 0x0FFF) ≠ 0 := by
  rw [emit_entry_eq]
  omega

theorem emit_entry_type (o : Nat) :
    ((IMAGE_REL_BASED_HIGHLOW <<< 12) ||| (o &&& 0x0FFF)) >>> 12 =
      IMAGE_REL_BASED_HIGHLOW := by
  rw [emit_entry_eq, Nat.shiftRight_eq_div_pow]
  show (12288 + o % 4096) / 2 ^ 12 = IMAGE_REL_BASED_HIGHLOW
  have : o % 4096 < 4096 := Nat.mod_lt o (show 0 < 4096 by norm_num)
  unfold IMAGE_REL_BASED_HIGHLOW
  omega

/-- C5: every relocation block emitted by `writeOutputFile` into the new
`.reloc` directory has `sizeOfBlock = (entry count including pad) * 2 + 8`;
the entry count including the pad is even; a single type-0 zero entry is
appended exactly when the count of real (non-zero) entries is odd; every
real entry's low 12 bits are below 4096; and every real entry carries
`FIXUP_TYPE` (3) in its high 4 bits. -/
theorem c5_emitted_block_shape (pbs : List PackedBlock) (rb : RelocBlock)
    (hmem : rb ∈ emitPackedBlocks pbs) :
    rb.sizeOfBlock = rb.entries.length * 2 + 8 ∧
    rb.entries.length % 2 = 0 ∧
    (∀ ent ∈ rb.entries, ent &&& 0x0FFF < 4096) ∧
    (∀ ent ∈ rb.entries, ent ≠ 0 → ent >>> 12 = IMAGE_REL_BASED_HIGHLOW) ∧
    rb.entries.length = (rb.entries.filter (fun ent => ent ≠ 0)).length +
      (if (rb.entries.filter (fun ent => ent ≠ 0)).length % 2 = 1 then 1 else 0) ∧
    ((rb.entries.filter (fun ent => ent ≠ 0)).length % 2 = 1 →
      rb.entries.getLast? = some 0) := by
  rcases List.mem_map.mp hmem with ⟨pb, hpb, hrb⟩
  subst hrb
  unfold emitPackedBlock
  have hfilterE : (pb.offsets.map
      (fun o => (IMAGE_REL_BASED_HIGHLOW <<< 12) ||| (o &&& 0x0FFF))).filter
      (fun ent => ent ≠ 0) =
      pb.offsets.map (fun o => (IMAGE_REL_BASED_HIGHLOW <<< 12) ||| (o &&& 0x0FFF)) := by
    apply List.filter_eq_self.mpr
    intro a ha
    rcases List.mem_map.mp ha with ⟨o, ho, hoa⟩
    subst hoa
    simp [emit_entry_pos o]
  have hlow : ∀ ent : Nat, ent &&& 0x0FFF < 4096 := by
    intro ent
    rw [and_4095_eq_mod]
    exact Nat.mod_lt ent (show 0 < 4096 by norm_num)
  have htype : ∀ ent ∈ pb.offsets.map
      (fun o => (IMAGE_REL_BASED_HIGHLOW <<< 12) ||| (o &&& 0x0FFF)),
      ent >>> 12 = IMAGE_REL_BASED_HIGHLOW := by
    intro ent hent
    rcases List.mem_map.mp hent with ⟨o, ho, hoa⟩
    subst hoa
    exact emit_entry_type o
  by_cases hodd : pb.offsets.length % 2 = 1
  · rw [if_pos hodd]
    simp only []
    have hflt : ((pb.offsets.map
        (fun o => (IMAGE_REL_BASED_HIGHLOW <<< 12) ||| (o &&& 0x0FFF))) ++ [0]).filter
        (fun ent => ent ≠ 0) =
        pb.offsets.map (fun o => (IMAGE_REL_BASED_HIGHLOW <<< 12) ||| (o &&& 0x0FFF)) := by
      rw [List.filter_append, hfilterE]
      simp
    refine ⟨?_, ?_, ?_, ?_, ?_, ?_⟩
    · simp
      omega
    · simp
      omega
    · intro ent _
      exact hlow ent
    · intro ent hent hne
      rcases List.mem_append.mp hent with h1 | h1
      · exact htype ent h1
      · simp at h1
        exact absurd h1 hne
    · rw [hflt]
      simp [hodd]
    · intro _
      exact List.getLast?_concat _
  · rw [if_neg hodd]
    simp only []
    refine ⟨?_, ?_, ?_, ?_, ?_, ?_⟩
    · simp
    · simp
      omega
    · intro ent _
      exact hlow ent
    · intro ent hent _
      exact htype ent hent
    · rw [hfilterE]
      simp
      omega
    · intro hcon
      rw [hfilterE] at hcon
      simp at hcon
      omega

/-- C5 witness: the block-shape properties instantiated on a concrete
packed block with a single offset (odd count, so a pad entry appears). -/
theorem c5_witness :
    (emitPackedBlock { beginRVA := 4096, offsets := [16] }).sizeOfBlock =
      (emitPackedBlock { beginRVA := 4096, offsets := [16] }).entries.length * 2 + 8 ∧
    (emitPackedBlock { beginRVA := 4096, offsets := [16] }).entries.length % 2 = 0 ∧
    (∀ ent ∈ (emitPackedBlock { beginRVA := 4096, offsets := [16] }).entries,
      ent &&& 0x0FFF < 4096) ∧
    (∀ ent ∈ (emitPackedBlock { beginRVA := 4096, offsets := [16] }).entries,
      ent ≠ 0 → ent >>> 12 = IMAGE_REL_BASED_HIGHLOW) ∧
    (emitPackedBlock { beginRVA := 4096, offsets := [16] }).entries.length =
      ((emitPackedBlock { beginRVA := 4096, offsets := [16] }).entries.filter
        (fun ent => ent ≠ 0)).length +
      (if ((emitPackedBlock { beginRVA := 4096, offsets := [16] }).entries.filter
        (fun ent => ent ≠ 0)).length % 2 = 1 then 1 else 0) ∧
    (((emitPackedBlock { beginRVA := 4096, offsets := [16] }).entries.filter
        (fun ent => ent ≠ 0)).length % 2 = 1 →
      (emitPackedBlock { beginRVA := 4096, offsets := [16] }).entries.getLast? = some 0) :=
  c5_emitted_block_shape [{ beginRVA := 4096, offsets := [16] }]
    (emitPackedBlock { beginRVA := 4096, offsets := [16] }) (by decide)

theorem hnFold_cons (lo hi v : Nat) (rest : List Nat) :
    hnFold (lo, hi) (v :: rest) =
      if v = 0 then hnFold (lo, hi) rest
      else if v < lo then hnFold (v, hi) rest
      else if hi < v then hnFold (lo, v) rest
      else hnFold (lo, hi) rest :=
  rfl

theorem hnGo_eq_fold (data : List Nat) :
    ∀ (fuel imp stop lo hi : Nat),
      hnGo data fuel imp stop lo hi = hnFold (lo, hi) (iatValuesGo data fuel imp stop) := by
  intro fuel
  induction fuel with
  | zero => intro imp stop lo hi; rfl
  | succ n ih =>
    intro imp stop lo hi
    unfold hnGo iatValuesGo
    by_cases himp : imp < stop
    · rw [if_pos himp, if_pos himp]
      cases hg : getData data imp with
      | none => rfl
      | some temp =>
        show (if temp = 0 then hnGo data n (imp + 4) stop lo hi
            else if temp < lo then hnGo data n (imp + 4) stop temp hi
            else if hi < temp then hnGo data n (imp + 4) stop lo temp
            else hnGo data n (imp + 4) stop lo hi) =
          hnFold (lo, hi) (temp :: iatValuesGo data n (imp + 4) stop)
        rw [hnFold_cons]
        by_cases h0 : temp = 0
        · rw [if_pos h0, if_pos h0]
          exact ih (imp + 4) stop lo hi
        · rw [if_neg h0, if_neg h0]
          by_cases hlo : temp < lo
          · rw [if_pos hlo, if_pos hlo]
            exact ih (imp + 4) stop temp hi
          · rw [if_neg hlo, if_neg hlo]
            by_cases hhi : hi < temp
            · rw [if_pos hhi, if_pos hhi]
              exact ih (imp + 4) stop lo temp
            · rw [if_neg hhi, if_neg hhi]
              exact ih (imp + 4) stop lo hi
    · rw [if_neg himp, if_neg himp]
      rfl

theorem hnFold_append (a b : List Nat) :
    ∀ lo hi : Nat, hnFold (lo, hi) (a ++ b) = hnFold (hnFold (lo, hi) a) b := by
  induction a with
  | nil => intro lo hi; rfl
  | cons v rest ih =>
    intro lo hi
    rw [show (v :: rest) ++ b = v :: (rest ++ b) from rfl, hnFold_cons, hnFold_cons]
    by_cases h0 : v = 0
    · rw [if_pos h0, if_pos h0, ih]
    · rw [if_neg h0, if_neg h0]
      by_cases hlo : v < lo
      · rw [if_pos hlo, if_pos hlo, ih]
      · rw [if_neg hlo, if_neg hlo]
        by_cases hhi : hi < v
        · rw [if_pos hhi, if_pos hhi, ih]
        · rw [if_neg hhi, if_neg hhi, ih]

theorem hnFold_fst (l : List Nat) :
    ∀ lo hi : Nat, (hnFold (lo, hi) l).1 = (l.filter (fun v => v ≠ 0)).foldl min lo := by
  induction l with
  | nil => intro lo hi; rfl
  | cons v rest ih =>
    intro lo hi
    rw [hnFold_cons]
    by_cases h0 : v = 0
    · rw [if_pos h0, ih]
      subst h0
      simp
    · rw [if_neg h0]
      have hfl : (v :: rest).filter (fun x => x ≠ 0) =
          v :: rest.filter (fun x => x ≠ 0) := by
        simp [h0]
      rw [hfl]
      by_cases hlo : v < lo
      · rw [if_pos hlo, ih]
        have : min lo v = v := by omega
        simp [this]
      · rw [if_neg hlo]
        have hminv : min lo v = lo := by omega
        by_cases hhi : hi < v
        · rw [if_pos hhi, ih]
          simp [hminv]
        · rw [if_neg hhi, ih]
          simp [hminv]

theorem hnFold_snd_le (M : Nat) (l : List Nat) :
    ∀ lo hi : Nat, (∀ x ∈ l, x ≤ M) → hi ≤ M → (hnFold (lo, hi) l).2 ≤ M := by
  induction l with
  | nil => intro lo hi _ hhi; exact hhi
  | cons v rest ih =>
    intro lo hi hb hhi
    rw [hnFold_cons]
    have hbv : v ≤ M := hb v (by simp)
    have hbr : ∀ x ∈ rest, x ≤ M := fun x hx => hb x (by simp [hx])
    by_cases h0 : v = 0
    · rw [if_pos h0]
      exact ih lo hi hbr hhi
    · rw [if_neg h0]
      by_cases hlo : v < lo
      · rw [if_pos hlo]
        exact ih v hi hbr hhi
      · rw [if_neg hlo]
        by_cases hhiv : hi < v
        · rw [if_pos hhiv]
          exact ih lo v hbr hbv
        · rw [if_neg hhiv]
          exact ih lo hi hbr hhi

theorem hnFold_snd_ge (l : List Nat) :
    ∀ lo hi : Nat, hi ≤ (hnFold (lo, hi) l).2 := by
  induction l with
  | nil => intro lo hi; exact Nat.le_refl hi
  | cons v rest ih =>
    intro lo hi
    rw [hnFold_cons]
    by_cases h0 : v = 0
    · rw [if_pos h0]
      exact ih lo hi
    · rw [if_neg h0]
      by_cases hlo : v < lo
      · rw [if_pos hlo]
        exact ih v hi
      · rw [if_neg hlo]
        by_cases hhiv : hi < v
        · rw [if_pos hhiv]
          exact Nat.le_trans (Nat.le_of_lt hhiv) (ih lo v)
        · rw [if_neg hhiv]
          exact ih lo hi

theorem hnFold_reaches_max (M : Nat) (l : List Nat) :
    ∀ lo hi : Nat, M ∈ l → M ≠ 0 → lo ≤ M → hi ≤ M → (∀ x ∈ l, x ≤ M) →
      (hnFold (lo, hi) l).2 = M := by
  induction l with
  | nil => intro lo hi hmem; simp at hmem
  | cons v rest ih =>
    intro lo hi hmem hM0 hloM hhiM hb
    rw [hnFold_cons]
    have hbv : v ≤ M := hb v (by simp)
    have hbr : ∀ x ∈ rest, x ≤ M := fun x hx => hb x (by simp [hx])
    by_cases h0 : v = 0
    · rw [if_pos h0]
      have hmem2 : M ∈ rest := by
        rcases List.mem_cons.mp hmem with h | h
        · exact absurd (h.trans h0) hM0
        · exact h
      exact ih lo hi hmem2 hM0 hloM hhiM hbr
    · rw [if_neg h0]
      by_cases hlo : v < lo
      · rw [if_pos hlo]
        have hmem2 : M ∈ rest := by
          rcases List.mem_cons.mp hmem with h | h
          · omega
          · exact h
        exact ih v hi hmem2 hM0 (by omega) hhiM hbr
      · rw [if_neg hlo]
        by_cases hhiv : hi < v
        · rw [if_pos hhiv]
          rcases List.mem_cons.mp hmem with h | h
          · subst h
            exact Nat.le_antisymm (hnFold_snd_le M rest lo M hbr (Nat.le_refl M))
              (hnFold_snd_ge rest lo M)
          · exact ih lo v h hM0 hloM hbv hbr
        · rw [if_neg hhiv]
          rcases List.mem_cons.mp hmem with h | h
          · subst h
            have hhiM2 : hi = M := by omega
            subst hhiM2
            exact Nat.le_antisymm (hnFold_snd_le hi rest lo hi hbr (Nat.le_refl hi))
              (hnFold_snd_ge rest lo hi)
          · exact ih lo hi h hM0 hloM hhiM hbr

theorem foldl_min_le_start (t : List Nat) : ∀ b : Nat, t.foldl min b ≤ b := by
  induction t with
  | nil => intro b; exact Nat.le_refl b
  | cons w tr ihz => intro b; exact Nat.le_trans (ihz (min b w)) (by omega)

theorem foldl_min_le_mem {l : List Nat} {x : Nat} (hx : x ∈ l) (a : Nat) :
    l.foldl min a ≤ x := by
  induction l generalizing a with
  | nil => simp at hx
  | cons v rest ih =>
    rcases List.mem_cons.mp hx with h | h
    · show rest.foldl min (min a v) ≤ x
      rw [h]
      exact Nat.le_trans (foldl_min_le_start rest (min a v)) (by omega)
    · exact ih h (min a v)

theorem le_foldl_max_start (t : List Nat) : ∀ b : Nat, b ≤ t.foldl max b := by
  induction t with
  | nil => intro b; exact Nat.le_refl b
  | cons w tr ihz => intro b; exact Nat.le_trans (by omega) (ihz (max b w))

theorem le_foldl_max_mem {l : List Nat} {x : Nat} (hx : x ∈ l) (a : Nat) :
    x ≤ l.foldl max a := by
  induction l generalizing a with
  | nil => simp at hx
  | cons v rest ih =>
    rcases List.mem_cons.mp hx with h | h
    · show x ≤ rest.foldl max (max a v)
      rw [h]
      exact Nat.le_trans (by omega) (le_foldl_max_start rest (max a v))
    · exact ih h (max a v)

theorem hintsNamesRequest_some {secs : List PeSectionContents} {iatRVA iatSize k : Nat}
    {sec : PeSectionContents}
    (hlook : getSectionByRVA secs iatRVA iatSize = some k)
    (hsec : secs[k]? = some sec) :
    hintsNamesRequest secs iatRVA iatSize =
      some ((hnLoop sec.data (sub32 iatRVA sec.RVA)
          (add32 (sub32 iatRVA sec.RVA) iatSize) 0xFFFFFFFF 0).1,
        sub32 (hnLoop sec.data (sub32 iatRVA sec.RVA)
            (add32 (sub32 iatRVA sec.RVA) iatSize) 0xFFFFFFFF 0).2
          (hnLoop sec.data (sub32 iatRVA sec.RVA)
            (add32 (sub32 iatRVA sec.RVA) iatSize) 0xFFFFFFFF 0).1) := by
  unfold hintsNamesRequest
  rw [hlook]
  show (match secs[k]? with
    | none => none
    | some sec =>
      let iatOffset := sub32 iatRVA sec.RVA
      let r := hnLoop sec.data iatOffset (add32 iatOffset iatSize) 0xFFFFFFFF 0
      some (r.1, sub32 r.2 r.1)) = _
  rw [hsec]

/-- C7 (amended): in `rewriteImports`, for an IAT with a containing
section, the enqueued Hints/Names + DLL-names request starts at the
minimum of the non-zero 32-bit slot values; it also ends at the maximum
provided some occurrence of the maximum is preceded by another non-zero
slot — the original unconditional `[min, max]` claim fails because the
`else if` scan never lets the slot that lowers the running minimum also
raise the running maximum (see `c7_counterexample`, where the maximum
comes first and the computed upper end stays 0). -/
theorem c7_hints_names_range
    {secs : List PeSectionContents} {iatRVA iatSize k : Nat} {sec : PeSectionContents}
    (vals l1 l2 : List Nat)
    (hlook : getSectionByRVA secs iatRVA iatSize = some k)
    (hsec : secs[k]? = some sec)
    (hvals : vals = iatValues sec.data (sub32 iatRVA sec.RVA)
      (add32 (sub32 iatRVA sec.RVA) iatSize))
    (hsplit : vals = l1 ++ specMaxNonzero vals :: l2)
    (hM0 : specMaxNonzero vals ≠ 0)
    (hu : ∃ u ∈ l1, u ≠ 0) :
    hintsNamesRequest secs iatRVA iatSize =
      some (specMinNonzero vals,
        sub32 (specMaxNonzero vals) (specMinNonzero vals)) := by
  rw [hintsNamesRequest_some hlook hsec]
  have hloop : hnLoop sec.data (sub32 iatRVA sec.RVA)
      (add32 (sub32 iatRVA sec.RVA) iatSize) 0xFFFFFFFF 0 =
      hnFold (0xFFFFFFFF, 0) vals := by
    rw [hvals]
    unfold hnLoop iatValues
    exact hnGo_eq_fold sec.data _ _ _ _ _
  rw [hloop]
  have hfst : (hnFold (0xFFFFFFFF, 0) vals).1 = specMinNonzero vals := by
    rw [hnFold_fst vals 0xFFFFFFFF 0]
    rfl
  set M := specMaxNonzero vals with hMdef
  have hballe : ∀ x ∈ vals, x ≤ M := by
    intro x hx
    by_cases hx0 : x = 0
    · rw [hx0]
      exact Nat.zero_le M
    · have hxf : x ∈ vals.filter (fun v => v ≠ 0) :=
        List.mem_filter.mpr ⟨hx, by simp [hx0]⟩
      exact le_foldl_max_mem hxf 0
  rcases hu with ⟨u, hu1, hu0⟩
  have husub : u ∈ vals := by
    rw [hsplit]
    exact List.mem_append_left _ hu1
  have huM : u ≤ M := hballe u husub
  have hsnd : (hnFold (0xFFFFFFFF, 0) vals).2 = M := by
    conv_lhs => rw [hsplit]
    rw [hnFold_append]
    rcases hfold1 : hnFold (0xFFFFFFFF, 0) l1 with ⟨lo1, hi1⟩
    have hlo1 : lo1 ≤ u := by
      have hf := hnFold_fst l1 0xFFFFFFFF 0
      rw [hfold1] at hf
      have hf2 : lo1 = (l1.filter (fun v => v ≠ 0)).foldl min 0xFFFFFFFF := hf
      rw [hf2]
      exact foldl_min_le_mem (List.mem_filter.mpr ⟨hu1, by simp [hu0]⟩) 0xFFFFFFFF
    have hb1 : ∀ x ∈ l1, x ≤ M := fun x hx =>
      hballe x (by rw [hsplit]; exact List.mem_append_left _ hx)
    have hhi1 : hi1 ≤ M := by
      have hle := hnFold_snd_le M l1 0xFFFFFFFF 0 hb1 (Nat.zero_le M)
      rw [hfold1] at hle
      exact hle
    have hb2 : ∀ x ∈ M :: l2, x ≤ M := by
      intro x hx
      rcases List.mem_cons.mp hx with h | h
      · omega
      · exact hballe x (by rw [hsplit]; exact List.mem_append_right _ (by simp [h]))
    exact hnFold_reaches_max M (M :: l2) lo1 hi1 (by simp) hM0
      (Nat.le_trans hlo1 huM) hhi1 hb2
  rw [hfst, hsnd]

/-- C7 counterexample: an IAT whose non-zero slot values are `[2, 1]` (the
maximum first).  The computed request is `(1, 0 - 1)` — the running
highest stays 0 — instead of the claimed `[min, max] = (1, 1)`. -/
theorem c7_counterexample :
    hintsNamesRequest [descIatSection] 4096 8 = some (1, 4294967295) ∧
    ¬ hintsNamesRequest [descIatSection] 4096 8 =
        some (specMinNonzero (iatValues descIatSection.data
            (sub32 4096 descIatSection.RVA)
            (add32 (sub32 4096 descIatSection.RVA) 8)),
          sub32 (specMaxNonzero (iatValues descIatSection.data
              (sub32 4096 descIatSection.RVA)
              (add32 (sub32 4096 descIatSection.RVA) 8)))
            (specMinNonzero (iatValues descIatSection.data
              (sub32 4096 descIatSection.RVA)
              (add32 (sub32 4096 descIatSection.RVA) 8)))) := by
  refine ⟨by decide, by decide⟩

/-- C7 witness: the amended claim instantiated on an IAT whose non-zero
slot values are `[1, 2]`: the request is `[min, max] = (1, 1)`. -/
theorem c7_witness :
    hintsNamesRequest [ascIatSection] 4096 8 =
      some (specMinNonzero [1, 2], sub32 (specMaxNonzero [1, 2]) (specMinNonzero [1, 2])) :=
  @c7_hints_names_range [ascIatSection] 4096 8 0 ascIatSection [1, 2] [1] []
    (by decide) rfl (by decide) (by decide) (by decide) ⟨1, by decide, by decide⟩

theorem writeOutputFile_eq (st : PeRecompiler) (pf : PeFile) (hpf : st.peFile = some pf) :
    writeOutputFile st =
      (if st.sectionContents.length = 0 then (false, st)
      else
        match (runRewrites st (sub32 ACTUALIZED_BASE_ADDRESS pf.peHeader.imageBase)).1.peFile with
        | none => (false, (runRewrites st (sub32 ACTUALIZED_BASE_ADDRESS pf.peHeader.imageBase)).1)
        | some pf1 =>
          if (runRewrites st (sub32 ACTUALIZED_BASE_ADDRESS pf.peHeader.imageBase)).2.length ≠ 0 ∧
              pf1.relocBlocks.length ≠ 0 then
            (false, (runRewrites st (sub32 ACTUALIZED_BASE_ADDRESS pf.peHeader.imageBase)).1)
          else
            match embedStage
                (if (runRewrites st (sub32 ACTUALIZED_BASE_ADDRESS pf.peHeader.imageBase)).2.length ≠ 0 then
                  { pf1 with relocBlocks := pf1.relocBlocks ++
                    emitPackedBlocks (runRewrites st (sub32 ACTUALIZED_BASE_ADDRESS pf.peHeader.imageBase)).2 }
                else pf1)
                (runRewrites st (sub32 ACTUALIZED_BASE_ADDRESS pf.peHeader.imageBase)).1.sectionContents with
            | none =>
              (false, { (runRewrites st (sub32 ACTUALIZED_BASE_ADDRESS pf.peHeader.imageBase)).1 with
                peFile := some
                  (if (runRewrites st (sub32 ACTUALIZED_BASE_ADDRESS pf.peHeader.imageBase)).2.length ≠ 0 then
                    { pf1 with relocBlocks := pf1.relocBlocks ++
                      emitPackedBlocks (runRewrites st (sub32 ACTUALIZED_BASE_ADDRESS pf.peHeader.imageBase)).2 }
                  else pf1) })
            | some (pf3, secs3) =>
              if (runRewrites st (sub32 ACTUALIZED_BASE_ADDRESS pf.peHeader.imageBase)).1.shouldUseWin10Attack then
                match injectStubStage pf3 secs3
                    (runRewrites st (sub32 ACTUALIZED_BASE_ADDRESS pf.peHeader.imageBase)).1.sectionPool with
                | none =>
                  (false, { (runRewrites st (sub32 ACTUALIZED_BASE_ADDRESS pf.peHeader.imageBase)).1 with
                    peFile := some pf3, sectionContents := secs3 })
                | some (pf4, secs4, pool4) =>
                  (true, { (runRewrites st (sub32 ACTUALIZED_BASE_ADDRESS pf.peHeader.imageBase)).1 with
                    peFile := some pf4, sectionContents := secs4, sectionPool := pool4 })
              else
                (true, { (runRewrites st (sub32 ACTUALIZED_BASE_ADDRESS pf.peHeader.imageBase)).1 with
                  peFile := some pf3, sectionContents := secs3 })) := by
  unfold writeOutputFile
  rw [hpf]

theorem decrementEntry_section {st : PeRecompiler} {i s l offset δ : Nat}
    {sec : PeSectionContents} {v : Nat}
    (hsec : st.sectionContents[i]? = some sec)
    (hv : getData sec.data offset = some v) :
    decrementEntry st (RewriteBlock.sectionBlock i s l) offset δ =
      some { st with sectionContents := storeWord st.sectionContents i offset (sub32 v δ) } := by
  unfold decrementEntry
  show (match st.sectionContents[i]? with
    | none => none
    | some sec =>
      match getData sec.data offset with
      | none => none
      | some v => some { st with
          sectionContents := storeWord st.sectionContents i offset (sub32 v δ) }) = _
  rw [hsec]
  show (match getData sec.data offset with
    | none => none
    | some v => some { st with
        sectionContents := storeWord st.sectionContents i offset (sub32 v δ) }) = _
  rw [hv]

theorem storeWord_getElem_self {secs : List PeSectionContents} {k : Nat}
    {sec : PeSectionContents} (hsec : secs[k]? = some sec) (si v : Nat) :
    (storeWord secs k si v)[k]? = some { sec with data := putData sec.data si v } := by
  unfold storeWord
  rw [hsec]
  have hlt : k < secs.length := by
    by_contra hge
    rw [List.getElem?_eq_none (by omega)] at hsec
    exact Option.noConfusion hsec
  exact List.getElem?_set_self hlt

theorem storeWord_getElem_other {secs : List PeSectionContents} {k m : Nat}
    (hne : k ≠ m) (si v : Nat) :
    (storeWord secs k si v)[m]? = secs[m]? := by
  unfold storeWord
  cases hk : secs[k]? with
  | none => rfl
  | some sec => exact List.getElem?_set_ne hne

theorem slotOffsets_eight (off : Nat) : slotOffsets off 8 = [off, off + 4] := by
  unfold slotOffsets
  norm_num [List.range_succ]

theorem slotOffsets_four (off : Nat) : slotOffsets off 4 = [off] := by
  unfold slotOffsets
  norm_num [List.range_succ]

theorem blockSlots_section {st : PeRecompiler} {i : Nat} {sec : PeSectionContents}
    (hsec : st.sectionContents[i]? = some sec) (s l : Nat) :
    blockSlots st (RewriteBlock.sectionBlock i s l) =
      (slotOffsets s l).map (fun o => (add32 sec.RVA o, o)) := by
  unfold blockSlots
  show (match st.sectionContents[i]? with
    | none => []
    | some sec => (slotOffsets s l).map (fun o => (add32 sec.RVA o, o))) = _
  rw [hsec]

theorem packSlots_cons (blk : RewriteBlock) (δ : Nat) (st : PeRecompiler)
    (pbs : List PackedBlock) (rva off : Nat) (rest : List (Nat × Nat)) :
    packSlots blk δ (st, pbs) ((rva, off) :: rest) =
      match decrementEntry st blk off δ with
      | none => (st, pbs)
      | some st1 =>
        match pbs with
        | [] => (st1, [])
        | pb :: tail =>
          if 4096 ≤ (sub32 rva pb.beginRVA) % 65536 then
            packSlots blk δ (st1, { beginRVA := rva, offsets := [0] } :: pb :: tail) rest
          else
            packSlots blk δ
              (st1, { pb with offsets := pb.offsets ++ [(sub32 rva pb.beginRVA) % 65536] } :: tail)
              rest :=
  rfl

theorem getSectionByRVA_exists {secs : List PeSectionContents} {rva size m : Nat}
    (h : getSectionByRVA secs rva size = some m) :
    ∃ sec, secs[m]? = some sec := by
  unfold getSectionByRVA at h
  by_cases hz : rva = 0 ∨ size = 0
  · rw [if_pos hz] at h
    exact Option.noConfusion h
  · rw [if_neg hz] at h
    clear hz
    induction secs generalizing m with
    | nil => exact Option.noConfusion h
    | cons sec rest ih =>
      unfold findSection at h
      by_cases hc : sectionContains rva size sec
      · rw [if_pos hc] at h
        have hm : m = 0 := (Option.some.inj h).symm
        subst hm
        exact ⟨sec, by simp⟩
      · rw [if_neg hc] at h
        cases hrec : findSection rva size rest with
        | none =>
          rw [hrec] at h
          exact Option.noConfusion h
        | some j =>
          rw [hrec] at h
          have hm : m = j + 1 := (Option.some.inj h).symm
          subst hm
          rcases ih hrec with ⟨s2, hs2⟩
          exact ⟨s2, by simpa using hs2⟩


theorem set_getElem?_eq {α : Type} (l : List α) :
    ∀ (i : Nat) (x : α), l[i]? = some x → l.set i x = l := by
  induction l with
  | nil =>
    intro i x hx
    exact Option.noConfusion hx
  | cons a t ih =>
    intro i x hx
    cases i with
    | zero =>
      have hxa : x = a := by
        simp at hx
        exact hx.symm
      rw [hxa]
      rfl
    | succ j =>
      show a :: t.set j x = a :: t
      rw [ih j x (by simpa using hx)]

theorem updateSectionHeaderAt_names (ph : PeHeader) (i : Nat)
    (f : SectionHeader → SectionHeader) (hf : ∀ s, (f s).name = s.name) :
    (updateSectionHeaderAt ph i f).sections.map (fun s => s.name) =
      ph.sections.map (fun s => s.name) := by
  unfold updateSectionHeaderAt
  cases hs : ph.sections[i]? with
  | none => rfl
  | some s =>
    show (ph.sections.set i (f s)).map (fun s => s.name) = _
    rw [List.map_set, hf s]
    apply set_getElem?_eq
    rw [List.getElem?_map, hs]
    rfl

theorem updateSectionHeaderAt_entry (ph : PeHeader) (i : Nat)
    (f : SectionHeader → SectionHeader) :
    (updateSectionHeaderAt ph i f).addressOfEntryPoint = ph.addressOfEntryPoint := by
  unfold updateSectionHeaderAt
  cases hs : ph.sections[i]? with
  | none => rfl
  | some s => rfl

theorem embedStage_parts {pf : PeFile} {secs : List PeSectionContents} {m : Nat}
    {relocSec : PeSectionContents}
    (hlook : getSectionByRVA secs pf.peHeader.iddBaseRelocRva 4 = some m)
    (hms : secs[m]? = some relocSec) :
    ∃ ph, embedStage pf secs =
        some ({ pf with peHeader := ph },
          secs.set m { relocSec with data := pad512 (rebuildRelocData pf.relocBlocks) }) ∧
      ph.sections.map (fun s => s.name) = pf.peHeader.sections.map (fun s => s.name) ∧
      ph.addressOfEntryPoint = pf.peHeader.addressOfEntryPoint := by
  have hbody : embedStage pf secs =
      (let d1 := rebuildRelocData pf.relocBlocks
       let ph1 := updateSectionHeaderAt pf.peHeader relocSec.index
         (fun s => { s with virtualSize := d1.length })
       let ph2 := { ph1 with iddBaseRelocSize := d1.length }
       let d2 := pad512 d1
       let ph3 := updateSectionHeaderAt ph2 relocSec.index
         (fun s => { s with sizeOfRawData := d2.length })
       let ph4 := makeValid ph3 pf.mzHeader.addressOfPeHeader
       some ({ pf with peHeader := ph4 }, secs.set m { relocSec with data := d2 })) := by
    unfold embedStage
    rw [hlook]
    show (match secs[m]? with
      | none => none
      | some relocSec =>
        let d1 := rebuildRelocData pf.relocBlocks
        let ph1 := updateSectionHeaderAt pf.peHeader relocSec.index
          (fun s => { s with virtualSize := d1.length })
        let ph2 := { ph1 with iddBaseRelocSize := d1.length }
        let d2 := pad512 d1
        let ph3 := updateSectionHeaderAt ph2 relocSec.index
          (fun s => { s with sizeOfRawData := d2.length })
        let ph4 := makeValid ph3 pf.mzHeader.addressOfPeHeader
        some ({ pf with peHeader := ph4 }, secs.set m { relocSec with data := d2 })) = _
    rw [hms]
  refine ⟨updateSectionHeaderAt
      { updateSectionHeaderAt pf.peHeader relocSec.index
          (fun s => { s with virtualSize := (rebuildRelocData pf.relocBlocks).length }) with
        iddBaseRelocSize := (rebuildRelocData pf.relocBlocks).length }
      relocSec.index
      (fun s => { s with sizeOfRawData := (pad512 (rebuildRelocData pf.relocBlocks)).length }),
    hbody, ?_, ?_⟩
  · rw [updateSectionHeaderAt_names _ relocSec.index
      (fun s => { s with sizeOfRawData := (pad512 (rebuildRelocData pf.relocBlocks)).length })
      (fun s => rfl)]
    show (updateSectionHeaderAt pf.peHeader relocSec.index
        (fun s => { s with virtualSize := (rebuildRelocData pf.relocBlocks).length })).sections.map
        (fun s => s.name) = _
    rw [updateSectionHeaderAt_names _ relocSec.index
      (fun s => { s with virtualSize := (rebuildRelocData pf.relocBlocks).length })
      (fun s => rfl)]
  · rw [updateSectionHeaderAt_entry]
    show (updateSectionHeaderAt pf.peHeader relocSec.index
        (fun s => { s with virtualSize := (rebuildRelocData pf.relocBlocks).length })).addressOfEntryPoint = _
    rw [updateSectionHeaderAt_entry]

theorem windowAt_set_other {secs : List PeSectionContents} {m k : Nat}
    (hmk : m ≠ k) (X : PeSectionContents) (si : Nat) :
    windowAt (secs.set m X) k si = windowAt secs k si := by
  unfold windowAt
  rw [List.getElem?_set_ne hmk]

theorem packOneBlock_cons (δ : Nat) (st : PeRecompiler) (pbs : List PackedBlock)
    (blk : RewriteBlock) (rva off : Nat) (rest : List (Nat × Nat))
    (hs : blockSlots st blk = (rva, off) :: rest) :
    packOneBlock δ (st, pbs) blk =
      packSlots blk δ (st, { beginRVA := rva, offsets := [] } :: pbs) ((rva, off) :: rest) := by
  unfold packOneBlock
  show (match blockSlots st blk with
    | [] => (st, pbs)
    | (rva, off) :: rest =>
      packSlots blk δ (st, { beginRVA := rva, offsets := [] } :: pbs) ((rva, off) :: rest)) = _
  rw [hs]

theorem packSlots_step (blk : RewriteBlock) (δ : Nat) (st st1 : PeRecompiler)
    (brva : Nat) (offs : List Nat) (tail : List PackedBlock) (rva off : Nat)
    (rest : List (Nat × Nat))
    (hd : decrementEntry st blk off δ = some st1) :
    packSlots blk δ (st, { beginRVA := brva, offsets := offs } :: tail) ((rva, off) :: rest) =
      if 4096 ≤ (sub32 rva brva) % 65536 then
        packSlots blk δ
          (st1, { beginRVA := rva, offsets := [0] } ::
            { beginRVA := brva, offsets := offs } :: tail) rest
      else
        packSlots blk δ
          (st1, { beginRVA := brva, offsets := offs ++ [(sub32 rva brva) % 65536] } :: tail)
          rest := by
  rw [packSlots_cons, hd]

theorem runRewrites_two_blocks {st : PeRecompiler} {k off v w : Nat}
    {sec : PeSectionContents} (δ : Nat)
    (hblocks : st.rewriteBlocks =
      [RewriteBlock.sectionBlock k off 8, RewriteBlock.sectionBlock k off 4])
    (hsec : st.sectionContents[k]? = some sec)
    (hv : getData sec.data off = some v)
    (hw : getData sec.data (off + 4) = some w) :
    runRewrites st δ =
      ({ st with sectionContents :=
          storeWord (storeWord (storeWord st.sectionContents k off (sub32 v δ))
            k (off + 4) (sub32 w δ)) k off (sub32 (sub32 v δ) δ) },
       [{ beginRVA := add32 sec.RVA off, offsets := [0] },
        { beginRVA := add32 sec.RVA off, offsets := [0, 4] }]) := by
  have hb : off + 4 ≤ sec.data.length := getData_some_le hv
  have hsec1 : (storeWord st.sectionContents k off (sub32 v δ))[k]? =
      some { sec with data := putData sec.data off (sub32 v δ) } :=
    storeWord_getElem_self hsec off (sub32 v δ)
  have hv1 : getData (putData sec.data off (sub32 v δ)) (off + 4) = some w := by
    rw [getData_putData_frame (off + 4) off (sub32 v δ) (Or.inr (le_refl (off + 4)))]
    exact hw
  have hsec2 : (storeWord (storeWord st.sectionContents k off (sub32 v δ))
        k (off + 4) (sub32 w δ))[k]? =
      some { sec with
        data := putData (putData sec.data off (sub32 v δ)) (off + 4) (sub32 w δ) } :=
    storeWord_getElem_self hsec1 (off + 4) (sub32 w δ)
  have hv2 : getData (putData (putData sec.data off (sub32 v δ)) (off + 4) (sub32 w δ)) off =
      some (sub32 v δ) := by
    rw [getData_putData_frame off (off + 4) (sub32 w δ) (Or.inl (le_refl (off + 4)))]
    rw [getData_putData_self off (sub32 v δ) hb, Nat.mod_eq_of_lt (sub32_lt v δ)]
  have hslots1 : blockSlots st (RewriteBlock.sectionBlock k off 8) =
      (add32 sec.RVA off, off) :: [(add32 sec.RVA (off + 4), off + 4)] := by
    rw [blockSlots_section hsec off 8, slotOffsets_eight]
    rfl
  have hd1 : decrementEntry st (RewriteBlock.sectionBlock k off 8) off δ =
      some { st with sectionContents := storeWord st.sectionContents k off (sub32 v δ) } :=
    decrementEntry_section hsec hv
  have hd2 : decrementEntry
      { st with sectionContents := storeWord st.sectionContents k off (sub32 v δ) }
      (RewriteBlock.sectionBlock k off 8) (off + 4) δ =
      some { st with
        sectionContents :=
          storeWord (storeWord st.sectionContents k off (sub32 v δ)) k (off + 4)
            (sub32 w δ) } :=
    decrementEntry_section hsec1 hv1
  have hd3 : decrementEntry
      { st with
        sectionContents :=
          storeWord (storeWord st.sectionContents k off (sub32 v δ)) k (off + 4)
            (sub32 w δ) }
      (RewriteBlock.sectionBlock k off 4) off δ =
      some { st with
        sectionContents :=
          storeWord (storeWord (storeWord st.sectionContents k off (sub32 v δ))
            k (off + 4) (sub32 w δ)) k off (sub32 (sub32 v δ) δ) } :=
    decrementEntry_section hsec2 hv2
  have hslots2 : blockSlots
      { st with
        sectionContents :=
          storeWord (storeWord st.sectionContents k off (sub32 v δ)) k (off + 4)
            (sub32 w δ) }
      (RewriteBlock.sectionBlock k off 4) = [(add32 sec.RVA off, off)] := by
    rw [blockSlots_section hsec2 off 4, slotOffsets_four]
    rfl
  have h1 : packOneBlock δ (st, []) (RewriteBlock.sectionBlock k off 8) =
      ({ st with sectionContents :=
          storeWord (storeWord st.sectionContents k off (sub32 v δ)) k (off + 4) (sub32 w δ) },
       [{ beginRVA := add32 sec.RVA off, offsets := [0, 4] }]) := by
    rw [packOneBlock_cons δ st [] (RewriteBlock.sectionBlock k off 8) _ _ _ hslots1]
    rw [packSlots_step _ _ _ _ _ _ _ _ _ _ hd1]
    rw [sub32_self, Nat.zero_mod]
    rw [if_neg (by norm_num), List.nil_append]
    rw [packSlots_step _ _ _ _ _ _ _ _ _ _ hd2]
    rw [sub32_add32_add32 sec.RVA off 4 (by norm_num)]
    rw [Nat.mod_eq_of_lt (show (4 : Nat) < 65536 by norm_num)]
    rw [if_neg (by norm_num)]
    rfl
  have h2 : packOneBlock δ
      ({ st with sectionContents :=
          storeWord (storeWord st.sectionContents k off (sub32 v δ)) k (off + 4) (sub32 w δ) },
       [{ beginRVA := add32 sec.RVA off, offsets := [0, 4] }])
      (RewriteBlock.sectionBlock k off 4) =
      ({ st with sectionContents :=
          storeWord (storeWord (storeWord st.sectionContents k off (sub32 v δ))
            k (off + 4) (sub32 w δ)) k off (sub32 (sub32 v δ) δ) },
       [{ beginRVA := add32 sec.RVA off, offsets := [0] },
        { beginRVA := add32 sec.RVA off, offsets := [0, 4] }]) := by
    rw [packOneBlock_cons δ _ _ (RewriteBlock.sectionBlock k off 4) _ _ _ hslots2]
    rw [packSlots_step _ _ _ _ _ _ _ _ _ _ hd3]
    rw [sub32_self, Nat.zero_mod]
    rw [if_neg (by norm_num)]
    rfl
  unfold runRewrites
  rw [hblocks]
  show packOneBlock δ (packOneBlock δ (st, []) (RewriteBlock.sectionBlock k off 8))
      (RewriteBlock.sectionBlock k off 4) = _
  rw [h1, h2]
  rw [hblocks]

theorem writeOutputFile_success {st : PeRecompiler} {pf : PeFile} {ST1 : PeRecompiler}
    {PBS : List PackedBlock} {pf3 : PeFile} {secs3 : List PeSectionContents}
    (hpf : st.peFile = some pf)
    (hlen : st.sectionContents.length ≠ 0)
    (hrun : runRewrites st (sub32 ACTUALIZED_BASE_ADDRESS pf.peHeader.imageBase) = (ST1, PBS))
    (hpe1 : ST1.peFile = some pf)
    (hdir : pf.relocBlocks = [])
    (hne : PBS ≠ [])
    (hemb : embedStage { pf with relocBlocks := emitPackedBlocks PBS } ST1.sectionContents =
      some (pf3, secs3))
    (hflag : ST1.shouldUseWin10Attack = false) :
    writeOutputFile st = (true, { ST1 with peFile := some pf3, sectionContents := secs3 }) := by
  rw [writeOutputFile_eq st pf hpf, hrun, if_neg hlen]
  have hpe1p : ((ST1, PBS)).1.peFile = some pf := hpe1
  rw [hpe1p]
  show (if PBS.length ≠ 0 ∧ pf.relocBlocks.length ≠ 0 then
      (false, ST1)
    else
      match embedStage
          (if PBS.length ≠ 0 then
            { pf with relocBlocks := pf.relocBlocks ++ emitPackedBlocks PBS }
          else pf)
          ST1.sectionContents with
      | none =>
        (false, { ST1 with
          peFile := some
            (if PBS.length ≠ 0 then
              { pf with relocBlocks := pf.relocBlocks ++ emitPackedBlocks PBS }
            else pf) })
      | some (a3, b3) =>
        if ST1.shouldUseWin10Attack then
          match injectStubStage a3 b3 ST1.sectionPool with
          | none => (false, { ST1 with peFile := some a3, sectionContents := b3 })
          | some (a4, b4, p4) =>
            (true, { ST1 with peFile := some a4, sectionContents := b4, sectionPool := p4 })
        else
          (true, { ST1 with peFile := some a3, sectionContents := b3 })) = _
  have hlne : PBS.length ≠ 0 := by
    intro h
    exact hne (List.length_eq_zero.mp h)
  rw [hdir]
  rw [if_neg (by simp)]
  rw [if_pos hlne, List.nil_append]
  rw [hemb]
  show (if ST1.shouldUseWin10Attack then
      match injectStubStage pf3 secs3 ST1.sectionPool with
      | none => (false, { ST1 with peFile := some pf3, sectionContents := secs3 })
      | some (a4, b4, p4) =>
        (true, { ST1 with peFile := some a4, sectionContents := b4, sectionPool := p4 })
    else
      (true, { ST1 with peFile := some pf3, sectionContents := secs3 })) = _
  rw [hflag]
  rw [if_neg (by simp)]

/-- C4: `writeOutputFile` consumes the rewrite queue in insertion order and
emits the packed blocks in reverse-insertion order.  With two queued
section blocks over the same slot (the first covering bytes
`[off, off+8)`, the second `[off, off+4)` of the same section), a
successful run decrements the shared slot once per block (twice by the
pack delta), decrements the second slot once, and the new relocation
directory lists the later block's packed entry first: the directory is
`[block of the second rewrite, block of the first rewrite]`, both at the
same begin RVA. -/
theorem c4_rewrite_order
    {st : PeRecompiler} {pf : PeFile} {sec : PeSectionContents} {k off v w m : Nat}
    (hpf : st.peFile = some pf)
    (hflag : st.shouldUseWin10Attack = false)
    (hblocks : st.rewriteBlocks =
      [RewriteBlock.sectionBlock k off 8, RewriteBlock.sectionBlock k off 4])
    (hsec : st.sectionContents[k]? = some sec)
    (hv : getData sec.data off = some v)
    (hw : getData sec.data (off + 4) = some w)
    (hdir : pf.relocBlocks = [])
    (hm : getSectionByRVA st.sectionContents pf.peHeader.iddBaseRelocRva 4 = some m)
    (hmk : m ≠ k) :
    (writeOutputFile st).1 = true ∧
    (∃ pfOut, (writeOutputFile st).2.peFile = some pfOut ∧
      pfOut.relocBlocks =
        [emitPackedBlock { beginRVA := add32 sec.RVA off, offsets := [0] },
         emitPackedBlock { beginRVA := add32 sec.RVA off, offsets := [0, 4] }]) ∧
    windowAt (writeOutputFile st).2.sectionContents k off =
      some (sub32 (sub32 v (sub32 ACTUALIZED_BASE_ADDRESS pf.peHeader.imageBase)) (sub32 ACTUALIZED_BASE_ADDRESS pf.peHeader.imageBase)) ∧
    windowAt (writeOutputFile st).2.sectionContents k (off + 4) =
      some (sub32 w (sub32 ACTUALIZED_BASE_ADDRESS pf.peHeader.imageBase)) := by
  have hb : off + 4 ≤ sec.data.length := getData_some_le hv
  have hR := runRewrites_two_blocks (sub32 ACTUALIZED_BASE_ADDRESS pf.peHeader.imageBase) hblocks hsec hv hw
  have hlen : st.sectionContents.length ≠ 0 := by
    intro h0
    rw [List.getElem?_eq_none (by omega)] at hsec
    exact Option.noConfusion hsec
  have hs1 : (storeWord st.sectionContents k off (sub32 v (sub32 ACTUALIZED_BASE_ADDRESS pf.peHeader.imageBase)))[k]? =
      some { sec with data := putData sec.data off (sub32 v (sub32 ACTUALIZED_BASE_ADDRESS pf.peHeader.imageBase)) } :=
    storeWord_getElem_self hsec off (sub32 v (sub32 ACTUALIZED_BASE_ADDRESS pf.peHeader.imageBase))
  have hs2 : (storeWord (storeWord st.sectionContents k off (sub32 v (sub32 ACTUALIZED_BASE_ADDRESS pf.peHeader.imageBase)))
        k (off + 4) (sub32 w (sub32 ACTUALIZED_BASE_ADDRESS pf.peHeader.imageBase)))[k]? =
      some { sec with
        data := putData (putData sec.data off (sub32 v (sub32 ACTUALIZED_BASE_ADDRESS pf.peHeader.imageBase))) (off + 4) (sub32 w (sub32 ACTUALIZED_BASE_ADDRESS pf.peHeader.imageBase)) } :=
    storeWord_getElem_self hs1 (off + 4) (sub32 w (sub32 ACTUALIZED_BASE_ADDRESS pf.peHeader.imageBase))
  have hwin1 : windowAt (storeWord (storeWord (storeWord st.sectionContents k off (sub32 v (sub32 ACTUALIZED_BASE_ADDRESS pf.peHeader.imageBase))) k (off + 4) (sub32 w (sub32 ACTUALIZED_BASE_ADDRESS pf.peHeader.imageBase))) k off (sub32 (sub32 v (sub32 ACTUALIZED_BASE_ADDRESS pf.peHeader.imageBase)) (sub32 ACTUALIZED_BASE_ADDRESS pf.peHeader.imageBase))) k off = some (sub32 (sub32 v (sub32 ACTUALIZED_BASE_ADDRESS pf.peHeader.imageBase)) (sub32 ACTUALIZED_BASE_ADDRESS pf.peHeader.imageBase)) := by
    rw [windowAt_storeWord_self hs2 (by
      show off + 4 ≤ (putData (putData sec.data off (sub32 v (sub32 ACTUALIZED_BASE_ADDRESS pf.peHeader.imageBase))) (off + 4)
        (sub32 w (sub32 ACTUALIZED_BASE_ADDRESS pf.peHeader.imageBase))).length
      rw [length_putData, length_putData]
      exact hb)]
    rw [Nat.mod_eq_of_lt (sub32_lt (sub32 v (sub32 ACTUALIZED_BASE_ADDRESS pf.peHeader.imageBase)) (sub32 ACTUALIZED_BASE_ADDRESS pf.peHeader.imageBase))]
  have hwin2 : windowAt (storeWord (storeWord (storeWord st.sectionContents k off (sub32 v (sub32 ACTUALIZED_BASE_ADDRESS pf.peHeader.imageBase))) k (off + 4) (sub32 w (sub32 ACTUALIZED_BASE_ADDRESS pf.peHeader.imageBase))) k off (sub32 (sub32 v (sub32 ACTUALIZED_BASE_ADDRESS pf.peHeader.imageBase)) (sub32 ACTUALIZED_BASE_ADDRESS pf.peHeader.imageBase))) k (off + 4) = some (sub32 w (sub32 ACTUALIZED_BASE_ADDRESS pf.peHeader.imageBase)) := by
    rw [windowAt_storeWord_frame (Or.inl (le_refl (off + 4)))]
    rw [windowAt_storeWord_self hs1 (by
      show off + 4 + 4 ≤ (putData sec.data off (sub32 v (sub32 ACTUALIZED_BASE_ADDRESS pf.peHeader.imageBase))).length
      rw [length_putData]
      exact getData_some_le hw)]
    rw [Nat.mod_eq_of_lt (sub32_lt w (sub32 ACTUALIZED_BASE_ADDRESS pf.peHeader.imageBase))]
  have hgeom : sameGeom st.sectionContents (storeWord (storeWord (storeWord st.sectionContents k off (sub32 v (sub32 ACTUALIZED_BASE_ADDRESS pf.peHeader.imageBase))) k (off + 4) (sub32 w (sub32 ACTUALIZED_BASE_ADDRESS pf.peHeader.imageBase))) k off (sub32 (sub32 v (sub32 ACTUALIZED_BASE_ADDRESS pf.peHeader.imageBase)) (sub32 ACTUALIZED_BASE_ADDRESS pf.peHeader.imageBase))) :=
    sameGeom_trans (sameGeom_trans (storeWord_sameGeom _ _ _ _) (storeWord_sameGeom _ _ _ _))
      (storeWord_sameGeom _ _ _ _)
  obtain ⟨relocSec, hrel⟩ := getSectionByRVA_exists hm
  have hms3 : (storeWord (storeWord (storeWord st.sectionContents k off (sub32 v (sub32 ACTUALIZED_BASE_ADDRESS pf.peHeader.imageBase))) k (off + 4) (sub32 w (sub32 ACTUALIZED_BASE_ADDRESS pf.peHeader.imageBase))) k off (sub32 (sub32 v (sub32 ACTUALIZED_BASE_ADDRESS pf.peHeader.imageBase)) (sub32 ACTUALIZED_BASE_ADDRESS pf.peHeader.imageBase)))[m]? = some relocSec := by
    rw [storeWord_getElem_other (Ne.symm hmk), storeWord_getElem_other (Ne.symm hmk),
      storeWord_getElem_other (Ne.symm hmk)]
    exact hrel
  have hm3 : getSectionByRVA (storeWord (storeWord (storeWord st.sectionContents k off (sub32 v (sub32 ACTUALIZED_BASE_ADDRESS pf.peHeader.imageBase))) k (off + 4) (sub32 w (sub32 ACTUALIZED_BASE_ADDRESS pf.peHeader.imageBase))) k off (sub32 (sub32 v (sub32 ACTUALIZED_BASE_ADDRESS pf.peHeader.imageBase)) (sub32 ACTUALIZED_BASE_ADDRESS pf.peHeader.imageBase)))
      ({ pf with relocBlocks := emitPackedBlocks [{ beginRVA := add32 sec.RVA off, offsets := [0] }, { beginRVA := add32 sec.RVA off, offsets := [0, 4] }] }).peHeader.iddBaseRelocRva 4 =
      some m := by
    rw [← getSectionByRVA_congr hgeom]
    exact hm
  obtain ⟨ph, hembP, -, -⟩ :=
    @embedStage_parts { pf with relocBlocks := emitPackedBlocks [{ beginRVA := add32 sec.RVA off, offsets := [0] }, { beginRVA := add32 sec.RVA off, offsets := [0, 4] }] }
      (storeWord (storeWord (storeWord st.sectionContents k off (sub32 v (sub32 ACTUALIZED_BASE_ADDRESS pf.peHeader.imageBase))) k (off + 4) (sub32 w (sub32 ACTUALIZED_BASE_ADDRESS pf.peHeader.imageBase))) k off (sub32 (sub32 v (sub32 ACTUALIZED_BASE_ADDRESS pf.peHeader.imageBase)) (sub32 ACTUALIZED_BASE_ADDRESS pf.peHeader.imageBase))) m relocSec hm3 hms3
  have hpe1 : ({ st with sectionContents := storeWord (storeWord (storeWord st.sectionContents k off (sub32 v (sub32 ACTUALIZED_BASE_ADDRESS pf.peHeader.imageBase))) k (off + 4) (sub32 w (sub32 ACTUALIZED_BASE_ADDRESS pf.peHeader.imageBase))) k off (sub32 (sub32 v (sub32 ACTUALIZED_BASE_ADDRESS pf.peHeader.imageBase)) (sub32 ACTUALIZED_BASE_ADDRESS pf.peHeader.imageBase)) } : PeRecompiler).peFile = some pf := hpf
  have hflagST : ({ st with sectionContents := storeWord (storeWord (storeWord st.sectionContents k off (sub32 v (sub32 ACTUALIZED_BASE_ADDRESS pf.peHeader.imageBase))) k (off + 4) (sub32 w (sub32 ACTUALIZED_BASE_ADDRESS pf.peHeader.imageBase))) k off (sub32 (sub32 v (sub32 ACTUALIZED_BASE_ADDRESS pf.peHeader.imageBase)) (sub32 ACTUALIZED_BASE_ADDRESS pf.peHeader.imageBase)) } : PeRecompiler).shouldUseWin10Attack =
      false := hflag
  have hne : ([{ beginRVA := add32 sec.RVA off, offsets := [0] }, { beginRVA := add32 sec.RVA off, offsets := [0, 4] }] : List PackedBlock) ≠ [] := List.cons_ne_nil _ _
  have hW := writeOutputFile_success hpf hlen hR hpe1 hdir hne hembP hflagST
  have hw1 : windowAt ((storeWord (storeWord (storeWord st.sectionContents k off (sub32 v (sub32 ACTUALIZED_BASE_ADDRESS pf.peHeader.imageBase))) k (off + 4) (sub32 w (sub32 ACTUALIZED_BASE_ADDRESS pf.peHeader.imageBase))) k off (sub32 (sub32 v (sub32 ACTUALIZED_BASE_ADDRESS pf.peHeader.imageBase)) (sub32 ACTUALIZED_BASE_ADDRESS pf.peHeader.imageBase))).set m { relocSec with
      data := pad512 (rebuildRelocData
        ({ pf with relocBlocks := emitPackedBlocks [{ beginRVA := add32 sec.RVA off, offsets := [0] }, { beginRVA := add32 sec.RVA off, offsets := [0, 4] }] }).relocBlocks) }) k off =
      some (sub32 (sub32 v (sub32 ACTUALIZED_BASE_ADDRESS pf.peHeader.imageBase)) (sub32 ACTUALIZED_BASE_ADDRESS pf.peHeader.imageBase)) := by
    rw [windowAt_set_other hmk]
    exact hwin1
  have hw2 : windowAt ((storeWord (storeWord (storeWord st.sectionContents k off (sub32 v (sub32 ACTUALIZED_BASE_ADDRESS pf.peHeader.imageBase))) k (off + 4) (sub32 w (sub32 ACTUALIZED_BASE_ADDRESS pf.peHeader.imageBase))) k off (sub32 (sub32 v (sub32 ACTUALIZED_BASE_ADDRESS pf.peHeader.imageBase)) (sub32 ACTUALIZED_BASE_ADDRESS pf.peHeader.imageBase))).set m { relocSec with
      data := pad512 (rebuildRelocData
        ({ pf with relocBlocks := emitPackedBlocks [{ beginRVA := add32 sec.RVA off, offsets := [0] }, { beginRVA := add32 sec.RVA off, offsets := [0, 4] }] }).relocBlocks) }) k (off + 4) =
      some (sub32 w (sub32 ACTUALIZED_BASE_ADDRESS pf.peHeader.imageBase)) := by
    rw [windowAt_set_other hmk]
    exact hwin2
  refine ⟨?_, ⟨{ { pf with relocBlocks := emitPackedBlocks [{ beginRVA := add32 sec.RVA off, offsets := [0] }, { beginRVA := add32 sec.RVA off, offsets := [0, 4] }] } with peHeader := ph },
    ?_, ?_⟩, ?_, ?_⟩
  · rw [hW]
  · rw [hW]
  · rfl
  · rw [hW]
    exact hw1
  · rw [hW]
    exact hw2

/-- C4 witness: on a concrete state with the two overlapping section
blocks queued, the run succeeds, the output directory holds the second
block's entry first, and the shared slot is decremented twice. -/
theorem c4_witness :
    (writeOutputFile (packState
        [RewriteBlock.sectionBlock 0 0 8, RewriteBlock.sectionBlock 0 0 4] false)).1 = true ∧
    (∃ pfOut,
      (writeOutputFile (packState
          [RewriteBlock.sectionBlock 0 0 8, RewriteBlock.sectionBlock 0 0 4] false)).2.peFile =
        some pfOut ∧
      pfOut.relocBlocks =
        [emitPackedBlock { beginRVA := add32 packTextSection.RVA 0, offsets := [0] },
         emitPackedBlock { beginRVA := add32 packTextSection.RVA 0, offsets := [0, 4] }]) ∧
    windowAt (writeOutputFile (packState
        [RewriteBlock.sectionBlock 0 0 8, RewriteBlock.sectionBlock 0 0 4]
        false)).2.sectionContents 0 0 =
      some (sub32 (sub32 4198964 (sub32 ACTUALIZED_BASE_ADDRESS packPeFile.peHeader.imageBase))
        (sub32 ACTUALIZED_BASE_ADDRESS packPeFile.peHeader.imageBase)) ∧
    windowAt (writeOutputFile (packState
        [RewriteBlock.sectionBlock 0 0 8, RewriteBlock.sectionBlock 0 0 4]
        false)).2.sectionContents 0 (0 + 4) =
      some (sub32 151587081 (sub32 ACTUALIZED_BASE_ADDRESS packPeFile.peHeader.imageBase)) :=
  c4_rewrite_order rfl rfl rfl rfl rfl rfl rfl rfl Nat.one_ne_zero


theorem getElem?_append_length {α : Type} (xs : List α) (a : α) :
    (xs ++ [a])[xs.length]? = some a := by
  rw [List.getElem?_append_right (Nat.le_refl xs.length)]
  simp

theorem set_append_length {α : Type} (xs : List α) (a b : α) :
    (xs ++ [a]).set xs.length b = xs ++ [b] := by
  induction xs with
  | nil => rfl
  | cons x t ih =>
    show x :: (t ++ [a]).set t.length b = x :: (t ++ [b])
    rw [ih]

theorem addSectionHeader_sections (ph : PeHeader) (nm : String) (size : Nat) :
    (addSectionHeader ph nm size).sections =
      ph.sections ++
        [{ name := nm
           virtualSize := size
           virtualAddress := nextSectionRVA ph
           sizeOfRawData := size
           pointerToRawData := 0
           characteristics := 0 }] :=
  rfl

theorem updateSectionHeaderAt_some {ph : PeHeader} {i : Nat} {s : SectionHeader}
    (h : ph.sections[i]? = some s) (f : SectionHeader → SectionHeader) :
    updateSectionHeaderAt ph i f = { ph with sections := ph.sections.set i (f s) } := by
  unfold updateSectionHeaderAt
  rw [h]

theorem refreshFromHeader_some {ph : PeHeader} {sec : PeSectionContents} {s : SectionHeader}
    (h : ph.sections[sec.index]? = some s) :
    refreshFromHeader ph sec =
      { sec with
        RVA := s.virtualAddress
        size := s.sizeOfRawData
        rawPointer := s.pointerToRawData
        virtualSize := s.virtualSize
        name := s.name } := by
  unfold refreshFromHeader
  rw [h]

theorem allocSection_nil_pool (ph : PeHeader) (secs : List PeSectionContents) (mz : Nat)
    (nm : String) (size access : Nat) :
    allocSection ph secs [] mz nm size access =
      { header := updateSectionHeaderAt (addSectionHeader ph nm size)
          ((addSectionHeader ph nm size).sections.length - 1)
          (fun s => { s with characteristics := access })
        contents := secs ++ [refreshFromHeader
          (updateSectionHeaderAt (addSectionHeader ph nm size)
            ((addSectionHeader ph nm size).sections.length - 1)
            (fun s => { s with characteristics := access }))
          { index := (addSectionHeader ph nm size).sections.length - 1
            RVA := 0
            size := 0
            rawPointer := 0
            virtualSize := 0
            name := ""
            data := [] }]
        pool := []
        pos := secs.length } :=
  rfl

theorem injectStubStage_eq (pf : PeFile) (secs pool : List PeSectionContents) :
    injectStubStage pf secs pool =
      (let bytes := stubBytes pf.peHeader.addressOfEntryPoint
       let ar := allocSection pf.peHeader secs pool pf.mzHeader.addressOfPeHeader
         (".presel") bytes.length PRESEL_ACCESS
       let sc := ar.contents.getD ar.pos default
       let ph5 := addSectionHeader ar.header (".presel") bytes.length
       let ph6 := { ph5 with addressOfEntryPoint := sc.RVA }
       some ({ pf with peHeader := ph6 },
         ar.contents.set ar.pos { sc with data := pushBytes bytes sc.data }, ar.pool)) :=
  rfl


theorem injectStub_shape (pf : PeFile) (ph : PeHeader) (secs3 : List PeSectionContents) :
    injectStubStage { pf with peHeader := ph } secs3 [] =
      some ({ pf with peHeader :=
          { addSectionHeader { ph with sections := ph.sections ++ [({ name := ".presel", virtualSize := (stubBytes ph.addressOfEntryPoint).length, virtualAddress := nextSectionRVA ph, sizeOfRawData := (stubBytes ph.addressOfEntryPoint).length, pointerToRawData := 0, characteristics := PRESEL_ACCESS } : SectionHeader)] } (".presel") (stubBytes ph.addressOfEntryPoint).length with
            addressOfEntryPoint := nextSectionRVA ph } },
        secs3 ++ [({ index := ph.sections.length, RVA := nextSectionRVA ph, size := (stubBytes ph.addressOfEntryPoint).length, rawPointer := 0, virtualSize := (stubBytes ph.addressOfEntryPoint).length, name := ".presel", data := stubBytes ph.addressOfEntryPoint } : PeSectionContents)], []) := by
  have hrow : (addSectionHeader ph (".presel") (stubBytes ph.addressOfEntryPoint).length).sections[ph.sections.length]? =
      some ({ name := ".presel", virtualSize := (stubBytes ph.addressOfEntryPoint).length, virtualAddress := nextSectionRVA ph, sizeOfRawData := (stubBytes ph.addressOfEntryPoint).length, pointerToRawData := 0, characteristics := 0 } : SectionHeader) := by
    rw [addSectionHeader_sections]
    exact getElem?_append_length _ _
  have hidx : (addSectionHeader ph (".presel") (stubBytes ph.addressOfEntryPoint).length).sections.length - 1 =
      ph.sections.length := by
    rw [addSectionHeader_sections, List.length_append]
    simp
  have hupd : updateSectionHeaderAt (addSectionHeader ph (".presel") (stubBytes ph.addressOfEntryPoint).length)
      ph.sections.length (fun s => { s with characteristics := PRESEL_ACCESS }) =
      { ph with sections := ph.sections ++ [({ name := ".presel", virtualSize := (stubBytes ph.addressOfEntryPoint).length, virtualAddress := nextSectionRVA ph, sizeOfRawData := (stubBytes ph.addressOfEntryPoint).length, pointerToRawData := 0, characteristics := PRESEL_ACCESS } : SectionHeader)] } := by
    rw [updateSectionHeaderAt_some hrow, addSectionHeader_sections, set_append_length]
    rfl
  have hrowA : ({ ph with sections := ph.sections ++ [({ name := ".presel", virtualSize := (stubBytes ph.addressOfEntryPoint).length, virtualAddress := nextSectionRVA ph, sizeOfRawData := (stubBytes ph.addressOfEntryPoint).length, pointerToRawData := 0, characteristics := PRESEL_ACCESS } : SectionHeader)] } : PeHeader).sections[ph.sections.length]? = some ({ name := ".presel", virtualSize := (stubBytes ph.addressOfEntryPoint).length, virtualAddress := nextSectionRVA ph, sizeOfRawData := (stubBytes ph.addressOfEntryPoint).length, pointerToRawData := 0, characteristics := PRESEL_ACCESS } : SectionHeader) :=
    getElem?_append_length _ _
  have hrefr : refreshFromHeader { ph with sections := ph.sections ++ [({ name := ".presel", virtualSize := (stubBytes ph.addressOfEntryPoint).length, virtualAddress := nextSectionRVA ph, sizeOfRawData := (stubBytes ph.addressOfEntryPoint).length, pointerToRawData := 0, characteristics := PRESEL_ACCESS } : SectionHeader)] } ({ index := ph.sections.length, RVA := 0, size := 0, rawPointer := 0, virtualSize := 0, name := "", data := [] } : PeSectionContents) = ({ index := ph.sections.length, RVA := nextSectionRVA ph, size := (stubBytes ph.addressOfEntryPoint).length, rawPointer := 0, virtualSize := (stubBytes ph.addressOfEntryPoint).length, name := ".presel", data := [] } : PeSectionContents) :=
    refreshFromHeader_some hrowA
  have hARfull : allocSection ph secs3 [] pf.mzHeader.addressOfPeHeader (".presel") (stubBytes ph.addressOfEntryPoint).length PRESEL_ACCESS =
      { header := { ph with sections := ph.sections ++ [({ name := ".presel", virtualSize := (stubBytes ph.addressOfEntryPoint).length, virtualAddress := nextSectionRVA ph, sizeOfRawData := (stubBytes ph.addressOfEntryPoint).length, pointerToRawData := 0, characteristics := PRESEL_ACCESS } : SectionHeader)] }
        contents := secs3 ++ [({ index := ph.sections.length, RVA := nextSectionRVA ph, size := (stubBytes ph.addressOfEntryPoint).length, rawPointer := 0, virtualSize := (stubBytes ph.addressOfEntryPoint).length, name := ".presel", data := [] } : PeSectionContents)]
        pool := []
        pos := secs3.length } := by
    rw [allocSection_nil_pool]
    rw [hidx]
    rw [hupd]
    rw [hrefr]
  have hgetd : (secs3 ++ [({ index := ph.sections.length, RVA := nextSectionRVA ph, size := (stubBytes ph.addressOfEntryPoint).length, rawPointer := 0, virtualSize := (stubBytes ph.addressOfEntryPoint).length, name := ".presel", data := [] } : PeSectionContents)]).getD secs3.length default = ({ index := ph.sections.length, RVA := nextSectionRVA ph, size := (stubBytes ph.addressOfEntryPoint).length, rawPointer := 0, virtualSize := (stubBytes ph.addressOfEntryPoint).length, name := ".presel", data := [] } : PeSectionContents) := by
    rw [List.getD_eq_getElem?_getD, getElem?_append_length]
    rfl
  rw [injectStubStage_eq]
  show (some ({ pf with peHeader :=
      { addSectionHeader (allocSection ph secs3 [] pf.mzHeader.addressOfPeHeader (".presel") (stubBytes ph.addressOfEntryPoint).length PRESEL_ACCESS).header (".presel") (stubBytes ph.addressOfEntryPoint).length with
        addressOfEntryPoint := ((allocSection ph secs3 [] pf.mzHeader.addressOfPeHeader (".presel") (stubBytes ph.addressOfEntryPoint).length PRESEL_ACCESS).contents.getD (allocSection ph secs3 [] pf.mzHeader.addressOfPeHeader (".presel") (stubBytes ph.addressOfEntryPoint).length PRESEL_ACCESS).pos default).RVA } },
    (allocSection ph secs3 [] pf.mzHeader.addressOfPeHeader (".presel") (stubBytes ph.addressOfEntryPoint).length PRESEL_ACCESS).contents.set (allocSection ph secs3 [] pf.mzHeader.addressOfPeHeader (".presel") (stubBytes ph.addressOfEntryPoint).length PRESEL_ACCESS).pos
      { ((allocSection ph secs3 [] pf.mzHeader.addressOfPeHeader (".presel") (stubBytes ph.addressOfEntryPoint).length PRESEL_ACCESS).contents.getD (allocSection ph secs3 [] pf.mzHeader.addressOfPeHeader (".presel") (stubBytes ph.addressOfEntryPoint).length PRESEL_ACCESS).pos default) with
        data := pushBytes (stubBytes ph.addressOfEntryPoint)
          ((allocSection ph secs3 [] pf.mzHeader.addressOfPeHeader (".presel") (stubBytes ph.addressOfEntryPoint).length PRESEL_ACCESS).contents.getD (allocSection ph secs3 [] pf.mzHeader.addressOfPeHeader (".presel") (stubBytes ph.addressOfEntryPoint).length PRESEL_ACCESS).pos default).data },
    (allocSection ph secs3 [] pf.mzHeader.addressOfPeHeader (".presel") (stubBytes ph.addressOfEntryPoint).length PRESEL_ACCESS).pool) : Option (PeFile × List PeSectionContents × List PeSectionContents)) = _
  rw [hARfull]
  show (some ({ pf with peHeader :=
      { addSectionHeader { ph with sections := ph.sections ++ [({ name := ".presel", virtualSize := (stubBytes ph.addressOfEntryPoint).length, virtualAddress := nextSectionRVA ph, sizeOfRawData := (stubBytes ph.addressOfEntryPoint).length, pointerToRawData := 0, characteristics := PRESEL_ACCESS } : SectionHeader)] } (".presel") (stubBytes ph.addressOfEntryPoint).length with
        addressOfEntryPoint := ((secs3 ++ [({ index := ph.sections.length, RVA := nextSectionRVA ph, size := (stubBytes ph.addressOfEntryPoint).length, rawPointer := 0, virtualSize := (stubBytes ph.addressOfEntryPoint).length, name := ".presel", data := [] } : PeSectionContents)]).getD secs3.length default).RVA } },
    (secs3 ++ [({ index := ph.sections.length, RVA := nextSectionRVA ph, size := (stubBytes ph.addressOfEntryPoint).length, rawPointer := 0, virtualSize := (stubBytes ph.addressOfEntryPoint).length, name := ".presel", data := [] } : PeSectionContents)]).set secs3.length
      { ((secs3 ++ [({ index := ph.sections.length, RVA := nextSectionRVA ph, size := (stubBytes ph.addressOfEntryPoint).length, rawPointer := 0, virtualSize := (stubBytes ph.addressOfEntryPoint).length, name := ".presel", data := [] } : PeSectionContents)]).getD secs3.length default) with
        data := pushBytes (stubBytes ph.addressOfEntryPoint) ((secs3 ++ [({ index := ph.sections.length, RVA := nextSectionRVA ph, size := (stubBytes ph.addressOfEntryPoint).length, rawPointer := 0, virtualSize := (stubBytes ph.addressOfEntryPoint).length, name := ".presel", data := [] } : PeSectionContents)]).getD secs3.length default).data },
    ([] : List PeSectionContents)) : Option (PeFile × List PeSectionContents × List PeSectionContents)) = _
  rw [hgetd, set_append_length]
  rfl

theorem writeOutputFile_success_win10_noblocks {st : PeRecompiler} {pf : PeFile}
    {pf3 pf4 : PeFile} {secs3 secs4 pool4 : List PeSectionContents}
    (hpf : st.peFile = some pf)
    (hlen : st.sectionContents.length ≠ 0)
    (hrun : runRewrites st (sub32 ACTUALIZED_BASE_ADDRESS pf.peHeader.imageBase) = (st, []))
    (hemb : embedStage pf st.sectionContents = some (pf3, secs3))
    (hflag : st.shouldUseWin10Attack = true)
    (hpool : st.sectionPool = [])
    (hinj : injectStubStage pf3 secs3 [] = some (pf4, secs4, pool4)) :
    writeOutputFile st =
      (true, { st with
        peFile := some pf4
        sectionContents := secs4
        sectionPool := pool4 }) := by
  rw [writeOutputFile_eq st pf hpf, hrun, if_neg hlen]
  have hpe1p : ((st, ([] : List PackedBlock))).1.peFile = some pf := hpf
  rw [hpe1p]
  show (match embedStage pf st.sectionContents with
    | none => (false, { st with peFile := some pf })
    | some (a3, b3) =>
      if st.shouldUseWin10Attack then
        match injectStubStage a3 b3 st.sectionPool with
        | none => (false, { st with peFile := some a3, sectionContents := b3 })
        | some (a4, b4, p4) =>
          (true, { st with peFile := some a4, sectionContents := b4, sectionPool := p4 })
      else
        (true, { st with peFile := some a3, sectionContents := b3 })) = _
  rw [hemb]
  show (if st.shouldUseWin10Attack then
      match injectStubStage pf3 secs3 st.sectionPool with
      | none => (false, { st with peFile := some pf3, sectionContents := secs3 })
      | some (a4, b4, p4) =>
        (true, { st with peFile := some a4, sectionContents := b4, sectionPool := p4 })
    else
      (true, { st with peFile := some pf3, sectionContents := secs3 })) = _
  rw [hflag, if_pos rfl, hpool, hinj]

/-- C10: in Win10 mode a successful `writeOutputFile` run performs a single
stub injection but adds a `.presel` section header twice (once inside
`allocSection`, lines 707-721, and once directly afterwards at
lines 587-589): the output section table holds exactly two rows named
`.presel`, the entry point is retargeted at the virtual address of the
first of them, and the stub bytes for the original entry point are written
only into the first one's data buffer (the tracked contents hold exactly
one `.presel` section, at the first row's RVA). -/
theorem c10_double_presel
    {st : PeRecompiler} {pf : PeFile} {m : Nat}
    (hpf : st.peFile = some pf)
    (hflag : st.shouldUseWin10Attack = true)
    (hblocks : st.rewriteBlocks = [])
    (hpool : st.sectionPool = [])
    (hlen : st.sectionContents.length ≠ 0)
    (hm : getSectionByRVA st.sectionContents pf.peHeader.iddBaseRelocRva 4 = some m)
    (hnames : ∀ s ∈ pf.peHeader.sections, s.name ≠ ".presel")
    (hcnames : ∀ c ∈ st.sectionContents, c.name ≠ ".presel") :
    (writeOutputFile st).1 = true ∧
    ∃ pfOut s1 s2 c,
      (writeOutputFile st).2.peFile = some pfOut ∧
      pfOut.peHeader.sections.filter (fun s => decide (s.name = ".presel")) = [s1, s2] ∧
      pfOut.peHeader.addressOfEntryPoint = s1.virtualAddress ∧
      (writeOutputFile st).2.sectionContents.filter
        (fun c0 => decide (c0.name = ".presel")) = [c] ∧
      c.RVA = s1.virtualAddress ∧
      c.data = stubBytes pf.peHeader.addressOfEntryPoint := by
  obtain ⟨relocSec, hrel⟩ := getSectionByRVA_exists hm
  obtain ⟨ph, hembP, hnamesP, hepE⟩ := embedStage_parts hm hrel
  have hrun : runRewrites st (sub32 ACTUALIZED_BASE_ADDRESS pf.peHeader.imageBase) =
      (st, []) := by
    unfold runRewrites
    rw [hblocks]
    rfl
  have hstub := injectStub_shape pf ph (st.sectionContents.set m { relocSec with data := pad512 (rebuildRelocData pf.relocBlocks) })
  have hW := writeOutputFile_success_win10_noblocks hpf hlen hrun hembP hflag hpool hstub
  have hfilter0 : ph.sections.filter (fun s => decide (s.name = ".presel")) = [] := by
    rw [List.filter_eq_nil_iff]
    intro s hs
    simp only [decide_eq_true_eq]
    have hsname : s.name ∈ pf.peHeader.sections.map (fun t => t.name) := by
      rw [← hnamesP]
      exact List.mem_map_of_mem (fun t => t.name) hs
    obtain ⟨t, ht, htn⟩ := List.mem_map.mp hsname
    rw [← htn]
    exact hnames t ht
  have hcfilter0 : (st.sectionContents.set m { relocSec with data := pad512 (rebuildRelocData pf.relocBlocks) }).filter (fun c0 => decide (c0.name = ".presel")) = [] := by
    rw [List.filter_eq_nil_iff]
    intro c0 hc0
    simp only [decide_eq_true_eq]
    rcases List.mem_or_eq_of_mem_set hc0 with hmem | heq
    · exact hcnames c0 hmem
    · rw [heq]
      exact hcnames relocSec (List.getElem?_mem hrel)
  refine ⟨?_, { pf with peHeader := { addSectionHeader { ph with sections := ph.sections ++ [({ name := ".presel", virtualSize := (stubBytes ph.addressOfEntryPoint).length, virtualAddress := nextSectionRVA ph, sizeOfRawData := (stubBytes ph.addressOfEntryPoint).length, pointerToRawData := 0, characteristics := PRESEL_ACCESS } : SectionHeader)] } (".presel") (stubBytes ph.addressOfEntryPoint).length with addressOfEntryPoint := nextSectionRVA ph } }, ({ name := ".presel", virtualSize := (stubBytes ph.addressOfEntryPoint).length, virtualAddress := nextSectionRVA ph, sizeOfRawData := (stubBytes ph.addressOfEntryPoint).length, pointerToRawData := 0, characteristics := PRESEL_ACCESS } : SectionHeader), ({ name := ".presel", virtualSize := (stubBytes ph.addressOfEntryPoint).length, virtualAddress := nextSectionRVA { ph with sections := ph.sections ++ [({ name := ".presel", virtualSize := (stubBytes ph.addressOfEntryPoint).length, virtualAddress := nextSectionRVA ph, sizeOfRawData := (stubBytes ph.addressOfEntryPoint).length, pointerToRawData := 0, characteristics := PRESEL_ACCESS } : SectionHeader)] }, sizeOfRawData := (stubBytes ph.addressOfEntryPoint).length, pointerToRawData := 0, characteristics := 0 } : SectionHeader), ({ index := ph.sections.length, RVA := nextSectionRVA ph, size := (stubBytes ph.addressOfEntryPoint).length, rawPointer := 0, virtualSize := (stubBytes ph.addressOfEntryPoint).length, name := ".presel", data := stubBytes ph.addressOfEntryPoint } : PeSectionContents), ?_, ?_, ?_, ?_, ?_, ?_⟩
  · rw [hW]
  · rw [hW]
  · show ((ph.sections ++ [({ name := ".presel", virtualSize := (stubBytes ph.addressOfEntryPoint).length, virtualAddress := nextSectionRVA ph, sizeOfRawData := (stubBytes ph.addressOfEntryPoint).length, pointerToRawData := 0, characteristics := PRESEL_ACCESS } : SectionHeader)]) ++ [({ name := ".presel", virtualSize := (stubBytes ph.addressOfEntryPoint).length, virtualAddress := nextSectionRVA { ph with sections := ph.sections ++ [({ name := ".presel", virtualSize := (stubBytes ph.addressOfEntryPoint).length, virtualAddress := nextSectionRVA ph, sizeOfRawData := (stubBytes ph.addressOfEntryPoint).length, pointerToRawData := 0, characteristics := PRESEL_ACCESS } : SectionHeader)] }, sizeOfRawData := (stubBytes ph.addressOfEntryPoint).length, pointerToRawData := 0, characteristics := 0 } : SectionHeader)]).filter
        (fun s => decide (s.name = ".presel")) = [({ name := ".presel", virtualSize := (stubBytes ph.addressOfEntryPoint).length, virtualAddress := nextSectionRVA ph, sizeOfRawData := (stubBytes ph.addressOfEntryPoint).length, pointerToRawData := 0, characteristics := PRESEL_ACCESS } : SectionHeader), ({ name := ".presel", virtualSize := (stubBytes ph.addressOfEntryPoint).length, virtualAddress := nextSectionRVA { ph with sections := ph.sections ++ [({ name := ".presel", virtualSize := (stubBytes ph.addressOfEntryPoint).length, virtualAddress := nextSectionRVA ph, sizeOfRawData := (stubBytes ph.addressOfEntryPoint).length, pointerToRawData := 0, characteristics := PRESEL_ACCESS } : SectionHeader)] }, sizeOfRawData := (stubBytes ph.addressOfEntryPoint).length, pointerToRawData := 0, characteristics := 0 } : SectionHeader)]
    rw [List.filter_append, List.filter_append, hfilter0]
    rfl
  · rfl
  · rw [hW]
    show ((st.sectionContents.set m { relocSec with data := pad512 (rebuildRelocData pf.relocBlocks) }) ++ [({ index := ph.sections.length, RVA := nextSectionRVA ph, size := (stubBytes ph.addressOfEntryPoint).length, rawPointer := 0, virtualSize := (stubBytes ph.addressOfEntryPoint).length, name := ".presel", data := stubBytes ph.addressOfEntryPoint } : PeSectionContents)]).filter (fun c0 => decide (c0.name = ".presel")) = [({ index := ph.sections.length, RVA := nextSectionRVA ph, size := (stubBytes ph.addressOfEntryPoint).length, rawPointer := 0, virtualSize := (stubBytes ph.addressOfEntryPoint).length, name := ".presel", data := stubBytes ph.addressOfEntryPoint } : PeSectionContents)]
    rw [List.filter_append, hcfilter0]
    rfl
  · rfl
  · show stubBytes ph.addressOfEntryPoint = stubBytes pf.peHeader.addressOfEntryPoint
    rw [hepE]

/-- C10 witness: a concrete Win10-mode run over `packPeFile` succeeds with
two `.presel` header rows, the entry point at the first row's RVA, and a
single `.presel` contents buffer holding the stub bytes. -/
theorem c10_witness :
    (writeOutputFile (packState [] true)).1 = true ∧
    ∃ pfOut s1 s2 c,
      (writeOutputFile (packState [] true)).2.peFile = some pfOut ∧
      pfOut.peHeader.sections.filter (fun s => decide (s.name = ".presel")) = [s1, s2] ∧
      pfOut.peHeader.addressOfEntryPoint = s1.virtualAddress ∧
      (writeOutputFile (packState [] true)).2.sectionContents.filter
        (fun c0 => decide (c0.name = ".presel")) = [c] ∧
      c.RVA = s1.virtualAddress ∧
      c.data = stubBytes packPeFile.peHeader.addressOfEntryPoint :=
  c10_double_presel rfl rfl rfl rfl (by decide) rfl (by decide) (by decide)
